import Mathlib

/-!
# lib/uuid.c : random UUID generation, parsing and ordering

A shallow embedding of `lib/uuid.c` and the properties of it that the
specification states.

Conventions of the embedding.

* `uint32_t` and `uint64_t` values are natural numbers; every store into such
  an object reduces modulo `2^32` resp. `2^64`.
* A `char` is the natural number of its (unsigned) byte value.  A `const char *`
  is the list of the bytes found at and after the pointer; dereferencing reads
  the head, `s++` drops it, and memory past the end of the list reads as NUL.
  The C string held by such a buffer is what precedes its first NUL.
* `ovs_fatal` aborts the process: functions that may call it return `Option`,
  `none` standing for the abort.
* The cipher, the hash and the object representations of integers are
  parameters (`Prims`); the answers of the operating system are a record
  (`Sys`).
-/

namespace OvsUuid

/-! ## Characters and strings -/

/-- The bytes of a string literal, without the terminating NUL. -/
def cstr (s : String) : List Nat := s.toList.map Char.toNat

/-- Reading `*s`. -/
def deref (s : List Nat) : Nat := s.headD 0

/-- The C library's `strlen`: the number of bytes before the first NUL. -/
def strlen (s : List Nat) : Nat := (s.takeWhile (fun c => c != 0)).length

/-- The C library's `isxdigit` in the "C" locale: `0-9`, `a-f`, `A-F`, and
no byte outside ASCII. -/
def isxdigit (c : Nat) : Bool :=
  ('0'.toNat ≤ c && c ≤ '9'.toNat) || ('a'.toNat ≤ c && c ≤ 'f'.toNat)
    || ('A'.toNat ≤ c && c ≤ 'F'.toNat)

/-- Modelled from the spec: `hexit_value` of lib/util.c, which is not among the
sources.  The spec has the 32 characters decoded as hexadecimal digits,
case-insensitively: `0`-`9` are 0..9 and `a`-`f`, `A`-`F` are 10..15.  The
value on any other character is never used by `uuid_from_string`, which
checks `isxdigit` first; it is 0 here. -/
def hexit_value (c : Nat) : Nat :=
  if '0'.toNat ≤ c ∧ c ≤ '9'.toNat then c - '0'.toNat
  else if 'a'.toNat ≤ c ∧ c ≤ 'f'.toNat then c - 'a'.toNat + 10
  else if 'A'.toNat ≤ c ∧ c ≤ 'F'.toNat then c - 'A'.toNat + 10
  else 0

/-! ## `struct uuid` -/

/-- The `struct uuid` of lib/uuid.h: `uint32_t parts[4]`. -/
structure Uuid where
  p0 : Nat
  p1 : Nat
  p2 : Nat
  p3 : Nat
deriving DecidableEq

/-- Reading `uuid->parts[i]`. -/
def Uuid.part (u : Uuid) (i : Nat) : Nat :=
  match i with
  | 0 => u.p0
  | 1 => u.p1
  | 2 => u.p2
  | 3 => u.p3
  | _ => 0

/-- Storing `uuid->parts[i] = v`. -/
def Uuid.setPart (u : Uuid) (i : Nat) (v : Nat) : Uuid :=
  match i with
  | 0 => { u with p0 := v % 2 ^ 32 }
  | 1 => { u with p1 := v % 2 ^ 32 }
  | 2 => { u with p2 := v % 2 ^ 32 }
  | 3 => { u with p3 := v % 2 ^ 32 }
  | _ => u

/-- Every part fits its `uint32_t`. -/
def Uuid.wf (u : Uuid) : Prop :=
  u.p0 < 2 ^ 32 ∧ u.p1 < 2 ^ 32 ∧ u.p2 < 2 ^ 32 ∧ u.p3 < 2 ^ 32

/-- Sets `uuid` to all-zero-bits (`uuid_zero`). -/
def uuid_zero (_uuid : Uuid) : Uuid := ⟨0, 0, 0, 0⟩

/-! ## `uuid_compare_3way` -/

/-- The three-way comparison `uuid_compare_3way`. -/
def uuid_compare_3way (a b : Uuid) : Int :=
  if a.part 0 ≠ b.part 0 then
    (if a.part 0 > b.part 0 then 1 else -1)
  else if a.part 1 ≠ b.part 1 then
    (if a.part 1 > b.part 1 then 1 else -1)
  else if a.part 2 ≠ b.part 2 then
    (if a.part 2 > b.part 2 then 1 else -1)
  else if a.part 3 ≠ b.part 3 then
    (if a.part 3 > b.part 3 then 1 else -1)
  else 0

/-! ## `uuid_from_string` -/

/-- The `template` of `uuid_from_string`. -/
def uuid_template : List Nat := cstr "00000000-1111-1111-2222-222233333333"

/-- The `for (t = template; ; t++, s++)` loop of `uuid_from_string`, from the
values of `t`, `*uuid` and `s` at the top of an iteration.  The empty list is
`t` pointing at the NUL that ends the template, where `*t` is 0.  Leaving by
`goto error` zeroes the identifier and returns false. -/
def from_string_loop : List Nat → Uuid → List Nat → Bool × Uuid
  | [], uuid, s =>
    if (0 : Nat) ≠ deref s then (false, uuid_zero uuid)
    else (true, uuid)
  | c :: t, uuid, s =>
    if '0'.toNat ≤ c ∧ c ≤ '3'.toNat then
      if ¬ isxdigit (deref s) then (false, uuid_zero uuid)
      else
        from_string_loop t
          (uuid.setPart (c - '0'.toNat)
            ((uuid.part (c - '0'.toNat) <<< 4) % 2 ^ 32 + hexit_value (deref s)))
          s.tail
    else if c ≠ deref s then (false, uuid_zero uuid)
    else if c = 0 then (true, uuid)
    else from_string_loop t uuid s.tail

/-- The function `uuid_from_string`: the result and the identifier left in
`*uuid`, which held `uuid` on entry. -/
def uuid_from_string (uuid : Uuid) (s : List Nat) : Bool × Uuid :=
  from_string_loop uuid_template (uuid_zero uuid) s

/-! ## The generator state and its initialization -/

/-- The functions `lib/uuid.c` calls and does not define.  `Key` is
`struct aes128`.  Blocks of 16 bytes are seen through the objects the code
keeps them in: the cipher takes the two `uint64_t` of `counter` and gives the
four `uint32_t` of `parts`, whatever the byte order of the machine. -/
structure Prims (Key : Type) where
  /-- The digest `sha1_final` gives for the bytes fed by `sha1_update`. -/
  sha1 : List Nat → List Nat
  /-- The `sizeof (pid_t)` bytes of a `pid_t` object. -/
  pid_bytes : Nat → List Nat
  /-- The `sizeof (uid_t)` bytes of a `uid_t` object. -/
  uid_bytes : Nat → List Nat
  /-- The `sizeof (gid_t)` bytes of a `gid_t` object. -/
  gid_bytes : Nat → List Nat
  /-- The key scheduled by `aes128_schedule` from 16 key bytes. -/
  aes128_schedule : List Nat → Key
  /-- The block `aes128_encrypt` writes for a key and an input block. -/
  aes128_encrypt : Key → Nat × Nat → Uuid
  /-- The two `uint64_t` that 16 bytes read into `counter` make. -/
  counter_of_bytes : List Nat → Nat × Nat

/-- What happens when `read_urandom` opens and reads /dev/urandom. -/
inductive ReadOutcome where
  /-- The call of `open` returns a negative descriptor. -/
  | open_failed
  /-- The call of `read_fully` returns `EOF`. -/
  | end_of_file
  /-- The call of `read_fully` returns another nonzero error. -/
  | read_error
  /-- The call of `read_fully` returns 0, with these bytes in the buffer. -/
  | ok (bytes : List Nat)
deriving DecidableEq

/-- The answers of the operating system to the calls of `do_init`, in the
order of the calls. -/
structure Sys where
  /-- The first `read_urandom`, into `random_seed`. -/
  urandom_seed : ReadOutcome
  /-- The time `gettimeofday` stores (seconds, microseconds); `none` when it
  returns nonzero. -/
  gettimeofday : Option (Nat × Nat)
  /-- The process id. -/
  getpid : Nat
  /-- The parent process id. -/
  getppid : Nat
  /-- The user id. -/
  getuid : Nat
  /-- The group id. -/
  getgid : Nat
  /-- The second `read_urandom`, into `counter`. -/
  urandom_counter : ReadOutcome

/-- The static objects of the module: `inited` of `uuid_init`, `key` and
`counter`. -/
structure State (Key : Type) where
  inited : Bool
  key : Key
  counter0 : Nat
  counter1 : Nat

/-- The function `read_urandom`: the bytes left in the buffer, or the abort. -/
def read_urandom (r : ReadOutcome) : Option (List Nat) :=
  match r with
  | .open_failed => none
  | .end_of_file => none
  | .read_error => none
  | .ok bytes => some bytes

/-- The function `do_init`. -/
def do_init {Key : Type} (P : Prims Key) (sys : Sys) (st : State Key) :
    Option (State Key) :=
  match read_urandom sys.urandom_seed with
  | none => none
  | some random_seed =>
    match sys.gettimeofday with
    | none => none
    | some _now =>
      let pid := sys.getpid
      let ppid := sys.getppid
      let uid := sys.getuid
      let gid := sys.getgid
      let sha1 := P.sha1 (random_seed ++ P.pid_bytes pid ++ P.pid_bytes ppid
        ++ P.uid_bytes uid ++ P.gid_bytes gid)
      let key := P.aes128_schedule (sha1.take 16)
      match read_urandom sys.urandom_counter with
      | none => none
      | some bytes =>
        some { st with
          key := key
          counter0 := (P.counter_of_bytes bytes).1 % 2 ^ 64
          counter1 := (P.counter_of_bytes bytes).2 % 2 ^ 64 }

/-- The function `uuid_init`. -/
def uuid_init {Key : Type} (P : Prims Key) (sys : Sys) (st : State Key) :
    Option (State Key) :=
  if ¬ st.inited then
    match do_init P sys st with
    | none => none
    | some st1 => some { st1 with inited := true }
  else some st

/-! ## `uuid_generate` -/

/-- The complement `~x` as it acts on a `uint32_t`. -/
def not32 (x : Nat) : Nat := 2 ^ 32 - 1 - x % 2 ^ 32

/-- The 16 bytes the cipher wrote, as they sit in `uuid->parts`. -/
def store_block (b : Uuid) : Uuid :=
  ⟨b.p0 % 2 ^ 32, b.p1 % 2 ^ 32, b.p2 % 2 ^ 32, b.p3 % 2 ^ 32⟩

/-- The function `uuid_generate`: the new state of the module and the
identifier written to `*uuid`, all 16 bytes of which the cipher overwrites. -/
def uuid_generate {Key : Type} (P : Prims Key) (sys : Sys) (st : State Key) :
    Option (State Key × Uuid) :=
  match uuid_init P sys st with
  | none => none
  | some st1 =>
    let counter1 := (st1.counter1 + 1) % 2 ^ 64
    let counter0 := if counter1 = 0 then (st1.counter0 + 1) % 2 ^ 64 else st1.counter0
    let uuid := store_block (P.aes128_encrypt st1.key (counter0, counter1))
    let uuid := uuid.setPart 2 (uuid.part 2 &&& not32 0xc0000000)
    let uuid := uuid.setPart 2 (uuid.part 2 ||| 0x80000000)
    let uuid := uuid.setPart 1 (uuid.part 1 &&& not32 0x0000f000)
    let uuid := uuid.setPart 1 (uuid.part 1 ||| 0x00004000)
    some ({ st1 with counter0 := counter0, counter1 := counter1 }, uuid)

/-- A process calling `uuid_generate` `n` times in a row: the final state and
the identifiers in the order generated, or the abort. -/
def generate_seq {Key : Type} (P : Prims Key) (sys : Sys) :
    Nat → State Key → Option (State Key × List Uuid)
  | 0, st => some (st, [])
  | n + 1, st =>
    match uuid_generate P sys st with
    | none => none
    | some (st1, uuid) =>
      match generate_seq P sys n st1 with
      | none => none
      | some (st2, uuids) => some (st2, uuid :: uuids)

/-! ## Notions the properties of `uuid_from_string` are stated with -/

/-- The number a string of hexadecimal digits writes in base 16, most
significant digit first. -/
def hex_value (ds : List Nat) : Nat :=
  ds.foldl (fun a d => a * 16 + hexit_value d) 0

/-- The value of a part after `*part = (*part << 4) + hexit_value(*s)`, both
the shift and the sum being taken in `uint32_t`. -/
def shift_in (v x : Nat) : Nat := ((v <<< 4) % 2 ^ 32 + hexit_value x) % 2 ^ 32

/-- The characters of the C string held at `s`: what precedes the first NUL. -/
def cstring (s : List Nat) : List Nat := s.takeWhile (fun c => c != 0)

/-- The hexadecimal digits of a string in reading order: the string with its
hyphens removed. -/
def hex_digits (s : List Nat) : List Nat := (cstring s).filter (fun c => c != '-'.toNat)

/-- The 36 characters of a string with a hexadecimal digit everywhere but at
positions 8, 13, 18 and 23, where it has `-`, and the NUL after them. -/
def Canonical36 (s : List Nat) : Prop :=
  ∃ c0 c1 c2 c3 c4 c5 c6 c7 c8 c9 c10 c11 c12 c13 c14 c15 c16 c17 c18 c19 c20 c21 c22 c23 c24 c25 c26 c27 c28 c29 c30 c31 c32 c33 c34 c35 rest,
    s = c0 :: c1 :: c2 :: c3 :: c4 :: c5 :: c6 :: c7 :: c8 :: c9 :: c10 :: c11 :: c12 :: c13 :: c14 :: c15 :: c16 :: c17 :: c18 :: c19 :: c20 :: c21 :: c22 :: c23 :: c24 :: c25 :: c26 :: c27 :: c28 :: c29 :: c30 :: c31 :: c32 :: c33 :: c34 :: c35 :: rest
      ∧ deref rest = 0
      ∧ (∀ c ∈ [c0, c1, c2, c3, c4, c5, c6, c7, c9, c10, c11, c12, c14, c15, c16, c17, c19, c20, c21, c22, c24, c25, c26, c27, c28, c29, c30, c31, c32, c33, c34, c35], isxdigit c = true)
      ∧ c8 = '-'.toNat ∧ c13 = '-'.toNat ∧ c18 = '-'.toNat ∧ c23 = '-'.toNat


/-- The `len` characters of `s` from position `start` on. -/
def group (s : List Nat) (start len : Nat) : List Nat := (s.drop start).take len

/-- The lowercase hexadecimal digit of a value below 16, as `%x` prints it. -/
def hex_digit (v : Nat) : Nat :=
  if v < 10 then '0'.toNat + v else 'a'.toNat + (v - 10)

/-- The `w` low hexadecimal digits of `v`, most significant first: what
`%0wx` prints for a value below `16^w`. -/
def hex_field : Nat → Nat → List Nat
  | 0, _ => []
  | w + 1, v => hex_digit (v / 16 ^ w % 16) :: hex_field w v

/-- Modelled from the spec: the canonical 8-4-4-4-12 string of an identifier
(`UUID_FMT` and `UUID_ARGS` of lib/uuid.h, which is not among the sources):
`parts[0]`; the high and the low 16 bits of `parts[1]`; the high 16 bits of
`parts[2]`; the low 16 bits of `parts[2]` followed by `parts[3]`; in lowercase
hexadecimal, without the terminating NUL. -/
def uuid_to_string (u : Uuid) : List Nat :=
  hex_field 8 (u.part 0) ++ '-'.toNat :: hex_field 4 (u.part 1 >>> 16)
    ++ '-'.toNat :: hex_field 4 (u.part 1 &&& 0xffff)
    ++ '-'.toNat :: hex_field 4 (u.part 2 >>> 16)
    ++ '-'.toNat :: hex_field 4 (u.part 2 &&& 0xffff) ++ hex_field 8 (u.part 3)

/-- The two words of `counter` after `k` more increments, reading `counter` as
the 128-bit number `counter[0] * 2^64 + counter[1]`. -/
def counter_add (c0 c1 k : Nat) : Nat × Nat :=
  ((c0 * 2 ^ 64 + c1 + k) % 2 ^ 128 / 2 ^ 64, (c0 * 2 ^ 64 + c1 + k) % 2 ^ 64)

/-- The four assignments of `uuid_generate` that follow the encryption: the
variant bits of `parts[2]` and the version bits of `parts[1]`. -/
def random_bits (uuid : Uuid) : Uuid :=
  let uuid := uuid.setPart 2 (uuid.part 2 &&& not32 0xc0000000)
  let uuid := uuid.setPart 2 (uuid.part 2 ||| 0x80000000)
  let uuid := uuid.setPart 1 (uuid.part 1 &&& not32 0x0000f000)
  uuid.setPart 1 (uuid.part 1 ||| 0x00004000)

/-- The block the cipher writes into `*uuid` in the call of `uuid_generate`
that follows `i` earlier calls made from the state `st`. -/
def nth_block {Key : Type} (P : Prims Key) (st : State Key) (i : Nat) : Uuid :=
  store_block (P.aes128_encrypt st.key (counter_add st.counter0 st.counter1 (i + 1)))

/-- Single-block encryption under a fixed key is injective: distinct input
blocks give distinct output blocks. -/
def cipher_injective {Key : Type} (P : Prims Key) : Prop :=
  ∀ k c0 c1 d0 d1, c0 < 2 ^ 64 → c1 < 2 ^ 64 → d0 < 2 ^ 64 → d1 < 2 ^ 64 →
    store_block (P.aes128_encrypt k (c0, c1)) = store_block (P.aes128_encrypt k (d0, d1)) →
      (c0, c1) = (d0, d1)

/-- The words of `counter` fit their `uint64_t`. -/
def State.wf {Key : Type} (st : State Key) : Prop :=
  st.counter0 < 2 ^ 64 ∧ st.counter1 < 2 ^ 64

/-! ## Sequences of calls, and notions the later properties are stated with -/

/-- A call the program makes into the module. -/
inductive Call where
  /-- A call of `uuid_init`. -/
  | init
  /-- A call of `uuid_generate`. -/
  | generate
deriving DecidableEq

/-- A process making the given calls in order: the final state of the module
and the identifiers generated, or the abort. -/
def run_calls {Key : Type} (P : Prims Key) (sys : Sys) :
    List Call → State Key → Option (State Key × List Uuid)
  | [], st => some (st, [])
  | .init :: calls, st =>
    match uuid_init P sys st with
    | none => none
    | some st1 => run_calls P sys calls st1
  | .generate :: calls, st =>
    match uuid_generate P sys st with
    | none => none
    | some (st1, uuid) =>
      match run_calls P sys calls st1 with
      | none => none
      | some (st2, uuids) => some (st2, uuid :: uuids)

/-- The number `counter[0] * 2^64 + counter[1]` that `counter` holds. -/
def State.counter_value {Key : Type} (st : State Key) : Nat :=
  st.counter0 * 2 ^ 64 + st.counter1

/-- One of the calls of `do_init` that can fail does fail: /dev/urandom cannot
be opened, a read of it ends early or in error, or `gettimeofday` fails. -/
def Sys.fails (sys : Sys) : Prop :=
  sys.urandom_seed = .open_failed ∨ sys.urandom_seed = .end_of_file
    ∨ sys.urandom_seed = .read_error ∨ sys.gettimeofday = none
    ∨ sys.urandom_counter = .open_failed ∨ sys.urandom_counter = .end_of_file
    ∨ sys.urandom_counter = .read_error

/-- The other-case form of a hexadecimal letter, `a`-`f` to `A`-`F` and back;
any other character is left as it is. -/
def other_case (c : Nat) : Nat :=
  if 'a'.toNat ≤ c ∧ c ≤ 'f'.toNat then c - 32
  else if 'A'.toNat ≤ c ∧ c ≤ 'F'.toNat then c + 32
  else c

/-- The string `s` with the hexadecimal letters at the positions that `mask`
marks replaced by their other-case form. -/
def flip_case : List Bool → List Nat → List Nat
  | _, [] => []
  | [], c :: s => c :: s
  | b :: mask, c :: s => (if b then other_case c else c) :: flip_case mask s

/-- The loop of `uuid_from_string` once more, returning besides its result
the positions of `s` it examines: each iteration examines `*s` (in
`isxdigit(*s)` and `hexit_value(*s)`, or in `*t != *s`), at the index `i` that
`s` has advanced by. -/
def from_string_loop_reads : List Nat → Uuid → List Nat → Nat → (Bool × Uuid) × List Nat
  | [], uuid, s, i =>
    if (0 : Nat) ≠ deref s then ((false, uuid_zero uuid), [i])
    else ((true, uuid), [i])
  | c :: t, uuid, s, i =>
    if '0'.toNat ≤ c ∧ c ≤ '3'.toNat then
      if ¬ isxdigit (deref s) then ((false, uuid_zero uuid), [i])
      else
        let r := from_string_loop_reads t
          (uuid.setPart (c - '0'.toNat)
            ((uuid.part (c - '0'.toNat) <<< 4) % 2 ^ 32 + hexit_value (deref s)))
          s.tail (i + 1)
        (r.1, i :: r.2)
    else if c ≠ deref s then ((false, uuid_zero uuid), [i])
    else if c = 0 then ((true, uuid), [i])
    else
      let r := from_string_loop_reads t uuid s.tail (i + 1)
      (r.1, i :: r.2)

/-- The function `uuid_from_string` with the positions of `s` it examines. -/
def uuid_from_string_reads (uuid : Uuid) (s : List Nat) : (Bool × Uuid) × List Nat :=
  from_string_loop_reads uuid_template (uuid_zero uuid) s 0


/-- The lowercase form of a hexadecimal letter: `A`-`F` become `a`-`f`, any
other character is left as it is. -/
def lower_case (c : Nat) : Nat :=
  if 'A'.toNat ≤ c ∧ c ≤ 'F'.toNat then c + 32 else c

/-- Byte-wise lexicographic comparison of two strings, the order of `strcmp`
and `memcmp`: -1 when the first is below the second, 1 when it is above, 0
when they are equal. -/
def lex_compare : List Nat → List Nat → Int
  | [], [] => 0
  | [], _ :: _ => -1
  | _ :: _, [] => 1
  | x :: xs, y :: ys =>
    if x < y then -1 else if x > y then 1 else lex_compare xs ys

/-- Three-way comparison of two numbers. -/
def cmp3 (a b : Nat) : Int :=
  if a < b then -1 else if a > b then 1 else 0

/-! ## Concrete instances -/

/-- A stand-in for the primitives with `Key := Nat`: the digest is its input,
objects are one byte, the key is the sum of the key bytes, blocks are read
from their first two bytes, and the cipher moves the four 32-bit halves of
the two counter words to parts 0, 2, 1, 3 (the key is not used). -/
def wordPrims : Prims Nat where
  sha1 := fun bytes => bytes
  pid_bytes := fun x => [x % 256]
  uid_bytes := fun x => [x % 256]
  gid_bytes := fun x => [x % 256]
  aes128_schedule := fun bytes => bytes.sum
  aes128_encrypt := fun _ c => ⟨c.1 / 2 ^ 32, c.2 % 2 ^ 32, c.1 % 2 ^ 32, c.2 / 2 ^ 32⟩
  counter_of_bytes := fun bytes => (bytes.getD 0 0, bytes.getD 1 0)

/-- An operating system on which every call of `do_init` succeeds. -/
def goodSys : Sys where
  urandom_seed := .ok (List.replicate 16 7)
  gettimeofday := some (1234567890, 42)
  getpid := 100
  getppid := 1
  getuid := 1000
  getgid := 1000
  urandom_counter := .ok (List.replicate 16 9)

/-- An initialized module with key 5 and counter 0. -/
def zeroState : State Nat := ⟨true, 5, 0, 0⟩

/-- A module before its first initialization: the static objects are zero. -/
def freshState : State Nat := ⟨false, 0, 0, 0⟩

/-- An operating system on which /dev/urandom cannot be opened. -/
def noUrandomSys : Sys := { goodSys with urandom_seed := .open_failed }

/-- An initialized module whose counter has all 64 low bits set. -/
def carryState : State Nat := ⟨true, 5, 3, 2 ^ 64 - 1⟩

/-! # Theorems -/

/-! ## Ordering -/

theorem compare_unfold (a b : Uuid) :
    uuid_compare_3way a b =
      if a.p0 ≠ b.p0 then (if a.p0 > b.p0 then 1 else -1)
      else if a.p1 ≠ b.p1 then (if a.p1 > b.p1 then 1 else -1)
      else if a.p2 ≠ b.p2 then (if a.p2 > b.p2 then 1 else -1)
      else if a.p3 ≠ b.p3 then (if a.p3 > b.p3 then 1 else -1)
      else 0 := rfl

/-- C8: for all identifiers `a` and `b`, `uuid_compare_3way a b` is one of
-1, 0, +1, and it is the negation of `uuid_compare_3way b a`. -/
theorem compare_3way_range_antisymm (a b : Uuid) :
    (uuid_compare_3way a b = -1 ∨ uuid_compare_3way a b = 0 ∨ uuid_compare_3way a b = 1)
      ∧ uuid_compare_3way a b = - uuid_compare_3way b a := by
  rw [compare_unfold a b, compare_unfold b a]
  split_ifs <;> omega

theorem compare_neg_iff (a b : Uuid) :
    uuid_compare_3way a b < 0 ↔
      (a.p0 < b.p0 ∨ (a.p0 = b.p0 ∧ (a.p1 < b.p1 ∨ (a.p1 = b.p1 ∧
        (a.p2 < b.p2 ∨ (a.p2 = b.p2 ∧ a.p3 < b.p3)))))) := by
  rw [compare_unfold a b]
  split_ifs <;> simp <;> omega

theorem compare_zero_iff (a b : Uuid) :
    uuid_compare_3way a b = 0 ↔
      (a.p0 = b.p0 ∧ a.p1 = b.p1 ∧ a.p2 = b.p2 ∧ a.p3 = b.p3) := by
  rw [compare_unfold a b]
  split_ifs <;> simp <;> omega

/-- C9: for all identifiers `a` and `b`, `uuid_compare_3way a b` is 0 if and
only if `a` and `b` are equal in all four parts. -/
theorem compare_3way_eq_zero_iff (a b : Uuid) :
    uuid_compare_3way a b = 0 ↔
      (a.part 0 = b.part 0 ∧ a.part 1 = b.part 1 ∧ a.part 2 = b.part 2
        ∧ a.part 3 = b.part 3) := by
  rw [compare_zero_iff]
  simp only [Uuid.part]

/-- C10: `uuid_compare_3way a b < 0` is a strict total order on identifiers:
if `a` is below `b` and `b` below `c` then `a` is below `c`; no identifier is
below itself; and of two identifiers that differ in some part one is below
the other. -/
theorem compare_3way_strict_total_order :
    (∀ a b c : Uuid, uuid_compare_3way a b < 0 → uuid_compare_3way b c < 0 →
        uuid_compare_3way a c < 0)
      ∧ (∀ a : Uuid, ¬ uuid_compare_3way a a < 0)
      ∧ (∀ a b : Uuid, a ≠ b → uuid_compare_3way a b < 0 ∨ uuid_compare_3way b a < 0) := by
  refine ⟨?_, ?_, ?_⟩
  · intro a b c
    rw [compare_neg_iff a b, compare_neg_iff b c, compare_neg_iff a c]
    omega
  · intro a
    rw [compare_neg_iff a a]
    omega
  · intro a b hab
    have hne : ¬ (a.p0 = b.p0 ∧ a.p1 = b.p1 ∧ a.p2 = b.p2 ∧ a.p3 = b.p3) := by
      rintro ⟨h0, h1, h2, h3⟩
      apply hab
      cases a
      cases b
      simp_all
    rw [compare_neg_iff a b, compare_neg_iff b a]
    omega

/-- The witness of C10: the three identifiers (0,0,0,1), (0,0,1,0), (0,1,0,0). -/
theorem compare_3way_strict_total_order_witness :
    uuid_compare_3way ⟨0, 0, 0, 1⟩ ⟨0, 0, 1, 0⟩ < 0
      ∧ uuid_compare_3way ⟨0, 0, 1, 0⟩ ⟨0, 1, 0, 0⟩ < 0
      ∧ uuid_compare_3way ⟨0, 0, 0, 1⟩ ⟨0, 1, 0, 0⟩ < 0 :=
  ⟨by decide, by decide,
    compare_3way_strict_total_order.1 ⟨0, 0, 0, 1⟩ ⟨0, 0, 1, 0⟩ ⟨0, 1, 0, 0⟩
      (by decide) (by decide)⟩

/-! ## The format bits of generated identifiers -/

theorem testBit_not32 (m i : Nat) :
    (not32 m).testBit i = (decide (i < 32) && !(m % 2 ^ 32).testBit i) := by
  unfold not32
  have h : 2 ^ 32 - 1 - m % 2 ^ 32 = 2 ^ 32 - (m % 2 ^ 32 + 1) := by omega
  rw [h]
  exact Nat.testBit_two_pow_sub_succ (Nat.mod_lt _ (by norm_num)) i

theorem and_not32_lt (x m : Nat) : x &&& not32 m < 2 ^ 32 := by
  have h1 : x &&& not32 m ≤ not32 m := Nat.and_le_right
  have h2 : not32 m < 2 ^ 32 := by unfold not32; omega
  omega

/-- Clearing the bits of a mask and then setting some of them. -/
theorem clear_then_set (x m v : Nat) (hm : m < 2 ^ 32) (hv : v &&& m = v) :
    (((x &&& not32 m) % 2 ^ 32 ||| v) % 2 ^ 32) &&& m = v := by
  have hv32 : v < 2 ^ 32 := by
    have : v &&& m ≤ m := Nat.and_le_right
    omega
  have h1 : x &&& not32 m < 2 ^ 32 := and_not32_lt x m
  rw [Nat.mod_eq_of_lt h1, Nat.mod_eq_of_lt (Nat.or_lt_two_pow h1 hv32)]
  apply Nat.eq_of_testBit_eq
  intro i
  have hvi := congrArg (fun n => n.testBit i) hv
  simp only [Nat.testBit_and] at hvi
  simp only [Nat.testBit_and, Nat.testBit_or, testBit_not32, Nat.mod_eq_of_lt hm]
  cases h1 : x.testBit i <;> cases h2 : m.testBit i <;> cases h3 : v.testBit i <;>
    simp_all

/-- Bits outside the mask are those the cipher wrote. -/
theorem clear_then_set_outside (x m v : Nat) (hm : m < 2 ^ 32) (hv : v &&& m = v) :
    (((x &&& not32 m) % 2 ^ 32 ||| v) % 2 ^ 32) &&& not32 m = x &&& not32 m := by
  have hv32 : v < 2 ^ 32 := by
    have : v &&& m ≤ m := Nat.and_le_right
    omega
  have h1 : x &&& not32 m < 2 ^ 32 := and_not32_lt x m
  rw [Nat.mod_eq_of_lt h1, Nat.mod_eq_of_lt (Nat.or_lt_two_pow h1 hv32)]
  apply Nat.eq_of_testBit_eq
  intro i
  have hvi := congrArg (fun n => n.testBit i) hv
  simp only [Nat.testBit_and] at hvi
  simp only [Nat.testBit_and, Nat.testBit_or, testBit_not32, Nat.mod_eq_of_lt hm]
  cases h1 : x.testBit i <;> cases h2 : m.testBit i <;> cases h3 : v.testBit i <;>
    simp_all

theorem uuid_init_inited {Key : Type} (P : Prims Key) (sys : Sys) (st : State Key)
    (h : st.inited = true) : uuid_init P sys st = some st := by
  simp [uuid_init, h]

/-- The body of `uuid_generate` after `uuid_init` has returned. -/
theorem uuid_generate_eq {Key : Type} (P : Prims Key) (sys : Sys) (st st2 : State Key)
    (u : Uuid) (h : uuid_generate P sys st = some (st2, u)) :
    ∃ st1, uuid_init P sys st = some st1 ∧
      st2.counter1 = (st1.counter1 + 1) % 2 ^ 64 ∧
      st2.counter0 = (if (st1.counter1 + 1) % 2 ^ 64 = 0 then (st1.counter0 + 1) % 2 ^ 64
        else st1.counter0) ∧
      st2.key = st1.key ∧ st2.inited = st1.inited ∧
      u.p0 = (P.aes128_encrypt st1.key (st2.counter0, st2.counter1)).p0 % 2 ^ 32 ∧
      u.p1 = (((P.aes128_encrypt st1.key (st2.counter0, st2.counter1)).p1 % 2 ^ 32
        &&& not32 0x0000f000) % 2 ^ 32 ||| 0x00004000) % 2 ^ 32 ∧
      u.p2 = (((P.aes128_encrypt st1.key (st2.counter0, st2.counter1)).p2 % 2 ^ 32
        &&& not32 0xc0000000) % 2 ^ 32 ||| 0x80000000) % 2 ^ 32 ∧
      u.p3 = (P.aes128_encrypt st1.key (st2.counter0, st2.counter1)).p3 % 2 ^ 32 := by
  unfold uuid_generate at h
  cases h1 : uuid_init P sys st with
  | none => simp [h1] at h
  | some st1 =>
    simp only [h1, Option.some.injEq, Prod.mk.injEq] at h
    obtain ⟨hs, hu⟩ := h
    subst hs
    subst hu
    exact ⟨st1, rfl, rfl, rfl, rfl, rfl, rfl, rfl, rfl, rfl⟩

/-- C6: every identifier that `uuid_generate` produces, whatever the state of
the module, the answers of the system, the key, the counter and the cipher,
has `parts[2] & 0xC0000000 == 0x80000000` and
`parts[1] & 0x0000F000 == 0x00004000`; and once the module is initialized
`uuid_generate` does produce an identifier. -/
theorem generate_format_bits {Key : Type} (P : Prims Key) (sys : Sys) (st : State Key) :
    (st.inited = true → (uuid_generate P sys st).isSome = true)
      ∧ ∀ st2 u, uuid_generate P sys st = some (st2, u) →
          u.part 2 &&& 0xC0000000 = 0x80000000 ∧ u.part 1 &&& 0x0000F000 = 0x00004000 := by
  constructor
  · intro h
    simp [uuid_generate, uuid_init_inited P sys st h]
  · intro st2 u h
    obtain ⟨st1, -, -, -, -, -, -, h1, h2, -⟩ := uuid_generate_eq P sys st st2 u h
    simp only [Uuid.part]
    rw [h1, h2]
    exact ⟨clear_then_set _ _ _ (by norm_num) (by decide),
      clear_then_set _ _ _ (by norm_num) (by decide)⟩

/-- The witness of C6: the first identifier generated from counter 0 with
the word-moving cipher. -/
theorem generate_format_bits_witness :
    zeroState.inited = true
      ∧ (uuid_generate wordPrims goodSys zeroState).isSome = true
      ∧ uuid_generate wordPrims goodSys zeroState
          = some (⟨true, 5, 0, 1⟩, ⟨0, 0x4001, 0x80000000, 0⟩)
      ∧ (⟨0, 0x4001, 0x80000000, 0⟩ : Uuid).part 2 &&& 0xC0000000 = 0x80000000
      ∧ (⟨0, 0x4001, 0x80000000, 0⟩ : Uuid).part 1 &&& 0x0000F000 = 0x00004000 :=
  ⟨rfl, (generate_format_bits wordPrims goodSys zeroState).1 rfl, rfl,
    (generate_format_bits wordPrims goodSys zeroState).2 _ _ rfl⟩

/-! ## Parsing: which strings are accepted -/

theorem isxdigit_ne_zero (c : Nat) (h : isxdigit c = true) : c ≠ 0 := by
  rintro rfl
  revert h
  decide

theorem strlen_nil : strlen [] = 0 := rfl

theorem strlen_cons (x : Nat) (s : List Nat) :
    strlen (x :: s) = if x = 0 then 0 else strlen s + 1 := by
  unfold strlen
  by_cases hx : x = 0
  · simp [hx, List.takeWhile_cons]
  · simp [hx, List.takeWhile_cons]

theorem loop_nil (u : Uuid) (s : List Nat) :
    from_string_loop [] u s = if deref s = 0 then (true, u) else (false, uuid_zero u) := by
  rw [from_string_loop]
  by_cases h : deref s = 0
  · simp [h]
  · have h2 : (0 : Nat) ≠ deref s := fun e => h e.symm
    simp [h, h2]

theorem loop_cons_digit (c : Nat) (t : List Nat) (u : Uuid) (s : List Nat)
    (hc : '0'.toNat ≤ c ∧ c ≤ '3'.toNat) :
    from_string_loop (c :: t) u s =
      if isxdigit (deref s) = true then
        from_string_loop t
          (u.setPart (c - '0'.toNat)
            ((u.part (c - '0'.toNat) <<< 4) % 2 ^ 32 + hexit_value (deref s)))
          s.tail
      else (false, uuid_zero u) := by
  rw [from_string_loop, if_pos hc]
  by_cases h : isxdigit (deref s) = true
  · simp [h]
  · simp [h]

theorem loop_cons_other (c : Nat) (t : List Nat) (u : Uuid) (s : List Nat)
    (hc : ¬ ('0'.toNat ≤ c ∧ c ≤ '3'.toNat)) (h0 : c ≠ 0) :
    from_string_loop (c :: t) u s =
      if deref s = c then from_string_loop t u s.tail else (false, uuid_zero u) := by
  rw [from_string_loop, if_neg hc]
  by_cases h : deref s = c
  · have h2 : ¬ (c ≠ deref s) := fun e => e h.symm
    simp [h, h0]
  · have h2 : c ≠ deref s := fun e => h e.symm
    simp [h, h2]

/-- A rejected string leaves the zero identifier. -/
theorem loop_fails_snd (t : List Nat) (u : Uuid) (s : List Nat)
    (h : (from_string_loop t u s).1 = false) :
    from_string_loop t u s = (false, ⟨0, 0, 0, 0⟩) := by
  induction t generalizing u s with
  | nil =>
    rw [loop_nil] at h ⊢
    by_cases h1 : deref s = 0
    · simp [h1] at h
    · simp [h1, uuid_zero]
  | cons c t ih =>
    by_cases hc : '0'.toNat ≤ c ∧ c ≤ '3'.toNat
    · rw [loop_cons_digit c t u s hc] at h ⊢
      by_cases h1 : isxdigit (deref s) = true
      · rw [if_pos h1] at h ⊢
        exact ih _ _ h
      · simp [h1, uuid_zero]
    · by_cases h0 : c = 0
      · subst h0
        rw [from_string_loop] at h ⊢
        by_cases h1 : (0 : Nat) ≠ deref s
        · simp [h1, uuid_zero]
        · simp [h1] at h
      · rw [loop_cons_other c t u s hc h0] at h ⊢
        by_cases h1 : deref s = c
        · rw [if_pos h1] at h ⊢
          exact ih _ _ h
        · simp [h1, uuid_zero]

theorem forall_lt_cons (c : Nat) (t : List Nat) (P : Nat → Prop) :
    (∀ i, i < (c :: t).length → P i) ↔ (P 0 ∧ ∀ i, i < t.length → P (i + 1)) := by
  constructor
  · intro h
    exact ⟨h 0 (by simp), fun i hi => h (i + 1) (by simpa using hi)⟩
  · rintro ⟨h0, h1⟩ i hi
    cases i with
    | zero => exact h0
    | succ i => exact h1 i (by simpa using hi)

theorem deref_eq_getD (s : List Nat) : deref s = s.getD 0 0 := by
  cases s <;> rfl

theorem getD_tail (s : List Nat) (i : Nat) : s.tail.getD i 0 = s.getD (i + 1) 0 := by
  cases s <;> simp

theorem strlen_eq_succ (s : List Nat) (n : Nat) :
    strlen s = n + 1 ↔ deref s ≠ 0 ∧ strlen s.tail = n := by
  cases s with
  | nil => simp [strlen_nil, deref]
  | cons x s =>
    by_cases hx : x = 0
    · simp [strlen_cons, deref, hx]
    · simp [strlen_cons, deref, hx]

/-- The loop accepts exactly the strings that have the length of the template,
a hexadecimal digit under each of its characters `0`..`3` and the template's
own character elsewhere. -/
theorem loop_accept_iff (t : List Nat) (ht : ∀ c ∈ t, c ≠ 0) (u : Uuid) (s : List Nat) :
    (from_string_loop t u s).1 = true ↔
      strlen s = t.length ∧
        ∀ i, i < t.length →
          if '0'.toNat ≤ t.getD i 0 ∧ t.getD i 0 ≤ '3'.toNat then isxdigit (s.getD i 0) = true
          else s.getD i 0 = t.getD i 0 := by
  induction t generalizing u s with
  | nil =>
    rw [loop_nil]
    cases s with
    | nil => simp [deref, strlen_nil]
    | cons x s =>
      by_cases hx : x = 0
      · simp [deref, strlen_cons, hx]
      · simp [deref, strlen_cons, hx]
  | cons c t ih =>
    have hc0 : c ≠ 0 := ht c (List.mem_cons_self _ _)
    have ht2 : ∀ c ∈ t, c ≠ 0 := fun c hc => ht c (List.mem_cons_of_mem _ hc)
    rw [forall_lt_cons, List.length_cons, strlen_eq_succ]
    simp only [List.getD_cons_zero, List.getD_cons_succ, ← getD_tail, ← deref_eq_getD]
    by_cases hc : '0'.toNat ≤ c ∧ c ≤ '3'.toNat
    · rw [loop_cons_digit c t u s hc, if_pos hc]
      by_cases h1 : isxdigit (deref s) = true
      · rw [if_pos h1, ih ht2]
        have := isxdigit_ne_zero _ h1
        tauto
      · simp [h1]
    · rw [loop_cons_other c t u s hc hc0, if_neg hc]
      by_cases h1 : deref s = c
      · rw [if_pos h1, ih ht2]
        have : deref s ≠ 0 := by rw [h1]; exact hc0
        tauto
      · simp [h1]

theorem template_ne_zero : ∀ c ∈ uuid_template, c ≠ 0 := by decide

theorem template_length : uuid_template.length = 36 := by decide

theorem template_getD :
    ∀ i, i < 36 → uuid_template.getD i 0 =
      if i = 8 ∨ i = 13 ∨ i = 18 ∨ i = 23 then '-'.toNat
      else if i < 8 then '0'.toNat
      else if i < 18 then '1'.toNat
      else if i < 28 then '2'.toNat
      else '3'.toNat := by
  decide

/-- C1: `uuid_from_string` returns true if and only if the string is exactly
36 characters long, has `-` at positions 8, 13, 18 and 23 (counted from 0) and
a hexadecimal digit at each of the other 32 positions. -/
theorem from_string_accepts_iff (u0 : Uuid) (s : List Nat) :
    (uuid_from_string u0 s).1 = true ↔
      (strlen s = 36
        ∧ s.getD 8 0 = '-'.toNat ∧ s.getD 13 0 = '-'.toNat
        ∧ s.getD 18 0 = '-'.toNat ∧ s.getD 23 0 = '-'.toNat
        ∧ ∀ i, i < 36 → i ≠ 8 → i ≠ 13 → i ≠ 18 → i ≠ 23 → isxdigit (s.getD i 0) = true) := by
  unfold uuid_from_string
  rw [loop_accept_iff uuid_template template_ne_zero, template_length]
  constructor
  · rintro ⟨hlen, h⟩
    refine ⟨hlen, ?_, ?_, ?_, ?_, ?_⟩
    · have := h 8 (by norm_num)
      rw [template_getD 8 (by norm_num)] at this
      simpa using this
    · have := h 13 (by norm_num)
      rw [template_getD 13 (by norm_num)] at this
      simpa using this
    · have := h 18 (by norm_num)
      rw [template_getD 18 (by norm_num)] at this
      simpa using this
    · have := h 23 (by norm_num)
      rw [template_getD 23 (by norm_num)] at this
      simpa using this
    · intro i hi h8 h13 h18 h23
      have := h i hi
      rw [template_getD i hi] at this
      have hn : ¬ (i = 8 ∨ i = 13 ∨ i = 18 ∨ i = 23) := by omega
      rw [if_neg hn] at this
      split_ifs at this with h1 h2 h3 h4 h5 h6 h7
      all_goals first
        | exact this
        | (exfalso; revert h2; decide)
        | (exfalso; revert h4; decide)
        | (exfalso; revert h6; decide)
        | (exfalso; revert h7; decide)
  · rintro ⟨hlen, h8, h13, h18, h23, h⟩
    refine ⟨hlen, ?_⟩
    intro i hi
    rw [template_getD i hi]
    by_cases hn : i = 8 ∨ i = 13 ∨ i = 18 ∨ i = 23
    · rw [if_pos hn]
      have hd : ¬ ('0'.toNat ≤ '-'.toNat ∧ '-'.toNat ≤ '3'.toNat) := by decide
      rw [if_neg hd]
      rcases hn with rfl | rfl | rfl | rfl <;> assumption
    · rw [if_neg hn]
      have hx := h i hi (by omega) (by omega) (by omega) (by omega)
      have d0 : ('0'.toNat ≤ '0'.toNat ∧ '0'.toNat ≤ '3'.toNat) := by decide
      have d1 : ('0'.toNat ≤ '1'.toNat ∧ '1'.toNat ≤ '3'.toNat) := by decide
      have d2 : ('0'.toNat ≤ '2'.toNat ∧ '2'.toNat ≤ '3'.toNat) := by decide
      have d3 : ('0'.toNat ≤ '3'.toNat ∧ '3'.toNat ≤ '3'.toNat) := by decide
      split_ifs <;> assumption

/-- C2: when `uuid_from_string` returns false, whatever the identifier held
before the call, it holds the zero identifier afterwards (the value
`uuid_zero` gives): all four parts are 0. -/
theorem from_string_reject_zero (u0 : Uuid) (s : List Nat)
    (h : (uuid_from_string u0 s).1 = false) :
    uuid_from_string u0 s = (false, uuid_zero u0)
      ∧ (uuid_from_string u0 s).2.part 0 = 0 ∧ (uuid_from_string u0 s).2.part 1 = 0
      ∧ (uuid_from_string u0 s).2.part 2 = 0 ∧ (uuid_from_string u0 s).2.part 3 = 0 := by
  have h2 := loop_fails_snd uuid_template (uuid_zero u0) s h
  unfold uuid_from_string
  rw [h2]
  exact ⟨rfl, rfl, rfl, rfl, rfl⟩

/-- The witness of C2: a string whose last character is `g`, parsed into an
identifier that held (1, 2, 3, 4). -/
theorem from_string_reject_zero_witness :
    (uuid_from_string ⟨1, 2, 3, 4⟩ (cstr "01234567-89ab-cdef-0123-456789abcdeg")).1 = false
      ∧ uuid_from_string ⟨1, 2, 3, 4⟩ (cstr "01234567-89ab-cdef-0123-456789abcdeg")
          = (false, ⟨0, 0, 0, 0⟩) :=
  ⟨by decide,
    (from_string_reject_zero ⟨1, 2, 3, 4⟩ (cstr "01234567-89ab-cdef-0123-456789abcdeg")
      (by decide)).1⟩
/-! ## Parsing: the shape of an accepted string -/

theorem strlen_le_length (s : List Nat) : strlen s ≤ s.length := by
  induction s with
  | nil => simp [strlen_nil]
  | cons x s ih =>
    rw [strlen_cons, List.length_cons]
    split_ifs <;> omega

theorem getD_strlen (s : List Nat) : s.getD (strlen s) 0 = 0 := by
  induction s with
  | nil => rfl
  | cons x s ih =>
    rw [strlen_cons]
    by_cases hx : x = 0
    · simp [hx]
    · rw [if_neg hx, List.getD_cons_succ]
      exact ih


theorem accepted_shape (u0 : Uuid) (s : List Nat) (h : (uuid_from_string u0 s).1 = true) :
    Canonical36 s := by
  unfold uuid_from_string at h
  obtain ⟨hlen, hall⟩ := (loop_accept_iff uuid_template template_ne_zero _ s).1 h
  rw [template_length] at hlen hall
  have h36 := getD_strlen s
  rw [hlen] at h36
  have hL : 36 ≤ s.length := hlen ▸ strlen_le_length s
  rcases s with _ | ⟨c0, s⟩
  · simp only [List.length_cons, List.length_nil] at hL; omega
  rcases s with _ | ⟨c1, s⟩
  · simp only [List.length_cons, List.length_nil] at hL; omega
  rcases s with _ | ⟨c2, s⟩
  · simp only [List.length_cons, List.length_nil] at hL; omega
  rcases s with _ | ⟨c3, s⟩
  · simp only [List.length_cons, List.length_nil] at hL; omega
  rcases s with _ | ⟨c4, s⟩
  · simp only [List.length_cons, List.length_nil] at hL; omega
  rcases s with _ | ⟨c5, s⟩
  · simp only [List.length_cons, List.length_nil] at hL; omega
  rcases s with _ | ⟨c6, s⟩
  · simp only [List.length_cons, List.length_nil] at hL; omega
  rcases s with _ | ⟨c7, s⟩
  · simp only [List.length_cons, List.length_nil] at hL; omega
  rcases s with _ | ⟨c8, s⟩
  · simp only [List.length_cons, List.length_nil] at hL; omega
  rcases s with _ | ⟨c9, s⟩
  · simp only [List.length_cons, List.length_nil] at hL; omega
  rcases s with _ | ⟨c10, s⟩
  · simp only [List.length_cons, List.length_nil] at hL; omega
  rcases s with _ | ⟨c11, s⟩
  · simp only [List.length_cons, List.length_nil] at hL; omega
  rcases s with _ | ⟨c12, s⟩
  · simp only [List.length_cons, List.length_nil] at hL; omega
  rcases s with _ | ⟨c13, s⟩
  · simp only [List.length_cons, List.length_nil] at hL; omega
  rcases s with _ | ⟨c14, s⟩
  · simp only [List.length_cons, List.length_nil] at hL; omega
  rcases s with _ | ⟨c15, s⟩
  · simp only [List.length_cons, List.length_nil] at hL; omega
  rcases s with _ | ⟨c16, s⟩
  · simp only [List.length_cons, List.length_nil] at hL; omega
  rcases s with _ | ⟨c17, s⟩
  · simp only [List.length_cons, List.length_nil] at hL; omega
  rcases s with _ | ⟨c18, s⟩
  · simp only [List.length_cons, List.length_nil] at hL; omega
  rcases s with _ | ⟨c19, s⟩
  · simp only [List.length_cons, List.length_nil] at hL; omega
  rcases s with _ | ⟨c20, s⟩
  · simp only [List.length_cons, List.length_nil] at hL; omega
  rcases s with _ | ⟨c21, s⟩
  · simp only [List.length_cons, List.length_nil] at hL; omega
  rcases s with _ | ⟨c22, s⟩
  · simp only [List.length_cons, List.length_nil] at hL; omega
  rcases s with _ | ⟨c23, s⟩
  · simp only [List.length_cons, List.length_nil] at hL; omega
  rcases s with _ | ⟨c24, s⟩
  · simp only [List.length_cons, List.length_nil] at hL; omega
  rcases s with _ | ⟨c25, s⟩
  · simp only [List.length_cons, List.length_nil] at hL; omega
  rcases s with _ | ⟨c26, s⟩
  · simp only [List.length_cons, List.length_nil] at hL; omega
  rcases s with _ | ⟨c27, s⟩
  · simp only [List.length_cons, List.length_nil] at hL; omega
  rcases s with _ | ⟨c28, s⟩
  · simp only [List.length_cons, List.length_nil] at hL; omega
  rcases s with _ | ⟨c29, s⟩
  · simp only [List.length_cons, List.length_nil] at hL; omega
  rcases s with _ | ⟨c30, s⟩
  · simp only [List.length_cons, List.length_nil] at hL; omega
  rcases s with _ | ⟨c31, s⟩
  · simp only [List.length_cons, List.length_nil] at hL; omega
  rcases s with _ | ⟨c32, s⟩
  · simp only [List.length_cons, List.length_nil] at hL; omega
  rcases s with _ | ⟨c33, s⟩
  · simp only [List.length_cons, List.length_nil] at hL; omega
  rcases s with _ | ⟨c34, s⟩
  · simp only [List.length_cons, List.length_nil] at hL; omega
  rcases s with _ | ⟨c35, s⟩
  · simp only [List.length_cons, List.length_nil] at hL; omega
  refine ⟨c0, c1, c2, c3, c4, c5, c6, c7, c8, c9, c10, c11, c12, c13, c14, c15, c16, c17, c18, c19, c20, c21, c22, c23, c24, c25, c26, c27, c28, c29, c30, c31, c32, c33, c34, c35, s, rfl, ?_, ?_, ?_, ?_, ?_, ?_⟩
  · rw [deref_eq_getD]; exact h36
  · intro c hc
    simp only [List.mem_cons, List.mem_singleton, List.not_mem_nil, or_false] at hc
    rcases hc with rfl | rfl | rfl | rfl | rfl | rfl | rfl | rfl | rfl | rfl | rfl | rfl | rfl | rfl | rfl | rfl | rfl | rfl | rfl | rfl | rfl | rfl | rfl | rfl | rfl | rfl | rfl | rfl | rfl | rfl | rfl | rfl
    · exact hall 0 (by norm_num)
    · exact hall 1 (by norm_num)
    · exact hall 2 (by norm_num)
    · exact hall 3 (by norm_num)
    · exact hall 4 (by norm_num)
    · exact hall 5 (by norm_num)
    · exact hall 6 (by norm_num)
    · exact hall 7 (by norm_num)
    · exact hall 9 (by norm_num)
    · exact hall 10 (by norm_num)
    · exact hall 11 (by norm_num)
    · exact hall 12 (by norm_num)
    · exact hall 14 (by norm_num)
    · exact hall 15 (by norm_num)
    · exact hall 16 (by norm_num)
    · exact hall 17 (by norm_num)
    · exact hall 19 (by norm_num)
    · exact hall 20 (by norm_num)
    · exact hall 21 (by norm_num)
    · exact hall 22 (by norm_num)
    · exact hall 24 (by norm_num)
    · exact hall 25 (by norm_num)
    · exact hall 26 (by norm_num)
    · exact hall 27 (by norm_num)
    · exact hall 28 (by norm_num)
    · exact hall 29 (by norm_num)
    · exact hall 30 (by norm_num)
    · exact hall 31 (by norm_num)
    · exact hall 32 (by norm_num)
    · exact hall 33 (by norm_num)
    · exact hall 34 (by norm_num)
    · exact hall 35 (by norm_num)
  · exact hall 8 (by norm_num)
  · exact hall 13 (by norm_num)
  · exact hall 18 (by norm_num)
  · exact hall 23 (by norm_num)

/-! ## Parsing: the value of an accepted string -/

theorem hexit_value_lt (c : Nat) : hexit_value c < 16 := by
  unfold hexit_value
  have e0 : '0'.toNat = 48 := rfl
  have e9 : '9'.toNat = 57 := rfl
  have ea : 'a'.toNat = 97 := rfl
  have ef : 'f'.toNat = 102 := rfl
  have eA : 'A'.toNat = 65 := rfl
  have eF : 'F'.toNat = 70 := rfl
  rw [e0, e9, ea, ef, eA, eF]
  split_ifs <;> omega

theorem shift_in_eight (x0 x1 x2 x3 x4 x5 x6 x7 : Nat) :
    shift_in (shift_in (shift_in (shift_in (shift_in (shift_in (shift_in (shift_in 0 x0) x1)
      x2) x3) x4) x5) x6) x7 = hex_value [x0, x1, x2, x3, x4, x5, x6, x7] := by
  have b0 := hexit_value_lt x0
  have b1 := hexit_value_lt x1
  have b2 := hexit_value_lt x2
  have b3 := hexit_value_lt x3
  have b4 := hexit_value_lt x4
  have b5 := hexit_value_lt x5
  have b6 := hexit_value_lt x6
  have b7 := hexit_value_lt x7
  simp only [shift_in, hex_value, List.foldl, Nat.shiftLeft_eq]
  generalize hexit_value x0 = h0 at *
  generalize hexit_value x1 = h1 at *
  generalize hexit_value x2 = h2 at *
  generalize hexit_value x3 = h3 at *
  generalize hexit_value x4 = h4 at *
  generalize hexit_value x5 = h5 at *
  generalize hexit_value x6 = h6 at *
  generalize hexit_value x7 = h7 at *
  omega

theorem template_eq :
    uuid_template =
      [48, 48, 48, 48, 48, 48, 48, 48, 45, 49, 49, 49, 49, 45, 49, 49, 49, 49, 45,
        50, 50, 50, 50, 45, 50, 50, 50, 50, 51, 51, 51, 51, 51, 51, 51, 51] := by
  decide

theorem loop_digit0 (t : List Nat) (a b c d x : Nat) (s : List Nat)
    (hx : isxdigit x = true) :
    from_string_loop (48 :: t) ⟨a, b, c, d⟩ (x :: s) =
      from_string_loop t ⟨shift_in a x, b, c, d⟩ s := by
  rw [loop_cons_digit _ _ _ _ (by decide)]
  simp [deref, hx, Uuid.setPart, Uuid.part, shift_in]

theorem loop_digit1 (t : List Nat) (a b c d x : Nat) (s : List Nat)
    (hx : isxdigit x = true) :
    from_string_loop (49 :: t) ⟨a, b, c, d⟩ (x :: s) =
      from_string_loop t ⟨a, shift_in b x, c, d⟩ s := by
  rw [loop_cons_digit _ _ _ _ (by decide)]
  simp [deref, hx, Uuid.setPart, Uuid.part, shift_in]

theorem loop_digit2 (t : List Nat) (a b c d x : Nat) (s : List Nat)
    (hx : isxdigit x = true) :
    from_string_loop (50 :: t) ⟨a, b, c, d⟩ (x :: s) =
      from_string_loop t ⟨a, b, shift_in c x, d⟩ s := by
  rw [loop_cons_digit _ _ _ _ (by decide)]
  simp [deref, hx, Uuid.setPart, Uuid.part, shift_in]

theorem loop_digit3 (t : List Nat) (a b c d x : Nat) (s : List Nat)
    (hx : isxdigit x = true) :
    from_string_loop (51 :: t) ⟨a, b, c, d⟩ (x :: s) =
      from_string_loop t ⟨a, b, c, shift_in d x⟩ s := by
  rw [loop_cons_digit _ _ _ _ (by decide)]
  simp [deref, hx, Uuid.setPart, Uuid.part, shift_in]

theorem loop_hyphen (t : List Nat) (u : Uuid) (s : List Nat) :
    from_string_loop (45 :: t) u (45 :: s) = from_string_loop t u s := by
  rw [loop_cons_other _ _ _ _ (by decide) (by decide)]
  simp [deref]

theorem loop_end (u : Uuid) (rest : List Nat) (h : deref rest = 0) :
    from_string_loop [] u rest = (true, u) := by
  rw [loop_nil, if_pos h]

/-- What `uuid_from_string` returns for a string of the canonical shape. -/
theorem from_string_cells (u0 : Uuid) (c0 c1 c2 c3 c4 c5 c6 c7 c8 c9 c10 c11 c12 c13 c14 c15 c16 c17 c18 c19 c20 c21 c22 c23 c24 c25 c26 c27 c28 c29 c30 c31 c32 c33 c34 c35 : Nat) (rest : List Nat)
    (hrest : deref rest = 0)
    (hd : ∀ c ∈ [c0, c1, c2, c3, c4, c5, c6, c7, c9, c10, c11, c12, c14, c15, c16, c17, c19, c20, c21, c22, c24, c25, c26, c27, c28, c29, c30, c31, c32, c33, c34, c35], isxdigit c = true)
    (h8 : c8 = '-'.toNat) (h13 : c13 = '-'.toNat) (h18 : c18 = '-'.toNat)
    (h23 : c23 = '-'.toNat) :
    uuid_from_string u0 (c0 :: c1 :: c2 :: c3 :: c4 :: c5 :: c6 :: c7 :: c8 :: c9 :: c10 :: c11 :: c12 :: c13 :: c14 :: c15 :: c16 :: c17 :: c18 :: c19 :: c20 :: c21 :: c22 :: c23 :: c24 :: c25 :: c26 :: c27 :: c28 :: c29 :: c30 :: c31 :: c32 :: c33 :: c34 :: c35 :: rest) =
      (true, ⟨hex_value [c0, c1, c2, c3, c4, c5, c6, c7], hex_value [c9, c10, c11, c12, c14, c15, c16, c17],
        hex_value [c19, c20, c21, c22, c24, c25, c26, c27], hex_value [c28, c29, c30, c31, c32, c33, c34, c35]⟩) := by
  have e : '-'.toNat = 45 := rfl
  rw [e] at h8 h13 h18 h23
  subst h8 h13 h18 h23
  simp only [List.forall_mem_cons, List.not_mem_nil, false_implies, implies_true, and_true,
    List.mem_cons, List.mem_singleton, forall_eq_or_imp, forall_eq] at hd
  obtain ⟨x0, x1, x2, x3, x4, x5, x6, x7, x9, x10, x11, x12, x14, x15, x16, x17, x19, x20, x21, x22, x24, x25, x26, x27, x28, x29, x30, x31, x32, x33, x34, x35⟩ := hd
  unfold uuid_from_string
  rw [template_eq]
  simp only [uuid_zero]
  rw [loop_digit0 _ _ _ _ _ _ _ x0]
  rw [loop_digit0 _ _ _ _ _ _ _ x1]
  rw [loop_digit0 _ _ _ _ _ _ _ x2]
  rw [loop_digit0 _ _ _ _ _ _ _ x3]
  rw [loop_digit0 _ _ _ _ _ _ _ x4]
  rw [loop_digit0 _ _ _ _ _ _ _ x5]
  rw [loop_digit0 _ _ _ _ _ _ _ x6]
  rw [loop_digit0 _ _ _ _ _ _ _ x7]
  rw [loop_hyphen]
  rw [loop_digit1 _ _ _ _ _ _ _ x9]
  rw [loop_digit1 _ _ _ _ _ _ _ x10]
  rw [loop_digit1 _ _ _ _ _ _ _ x11]
  rw [loop_digit1 _ _ _ _ _ _ _ x12]
  rw [loop_hyphen]
  rw [loop_digit1 _ _ _ _ _ _ _ x14]
  rw [loop_digit1 _ _ _ _ _ _ _ x15]
  rw [loop_digit1 _ _ _ _ _ _ _ x16]
  rw [loop_digit1 _ _ _ _ _ _ _ x17]
  rw [loop_hyphen]
  rw [loop_digit2 _ _ _ _ _ _ _ x19]
  rw [loop_digit2 _ _ _ _ _ _ _ x20]
  rw [loop_digit2 _ _ _ _ _ _ _ x21]
  rw [loop_digit2 _ _ _ _ _ _ _ x22]
  rw [loop_hyphen]
  rw [loop_digit2 _ _ _ _ _ _ _ x24]
  rw [loop_digit2 _ _ _ _ _ _ _ x25]
  rw [loop_digit2 _ _ _ _ _ _ _ x26]
  rw [loop_digit2 _ _ _ _ _ _ _ x27]
  rw [loop_digit3 _ _ _ _ _ _ _ x28]
  rw [loop_digit3 _ _ _ _ _ _ _ x29]
  rw [loop_digit3 _ _ _ _ _ _ _ x30]
  rw [loop_digit3 _ _ _ _ _ _ _ x31]
  rw [loop_digit3 _ _ _ _ _ _ _ x32]
  rw [loop_digit3 _ _ _ _ _ _ _ x33]
  rw [loop_digit3 _ _ _ _ _ _ _ x34]
  rw [loop_digit3 _ _ _ _ _ _ _ x35]
  rw [loop_end _ _ hrest, shift_in_eight, shift_in_eight, shift_in_eight, shift_in_eight]

theorem isxdigit_ne_hyphen (c : Nat) (h : isxdigit c = true) : c ≠ '-'.toNat := by
  rintro rfl
  revert h
  decide

theorem cstring_nul (rest : List Nat) (h : deref rest = 0) : cstring rest = [] := by
  cases rest with
  | nil => rfl
  | cons x s =>
    simp only [deref, List.headD_cons] at h
    simp [cstring, h]

theorem cstring_cons (x : Nat) (s : List Nat) (h : x ≠ 0) : cstring (x :: s) = x :: cstring s := by
  simp [cstring, h]

theorem filter_hyphen (s : List Nat) :
    List.filter (fun c => c != '-'.toNat) ('-'.toNat :: s)
      = List.filter (fun c => c != '-'.toNat) s := by
  simp

theorem filter_digit (x : Nat) (s : List Nat) (h : isxdigit x = true) :
    List.filter (fun c => c != '-'.toNat) (x :: s)
      = x :: List.filter (fun c => c != '-'.toNat) s := by
  have hne : (x != '-'.toNat) = true := by
    simpa using isxdigit_ne_hyphen x h
  rw [List.filter_cons, if_pos hne]

/-- The digits of a string of the canonical shape. -/
theorem hex_digits_cells (c0 c1 c2 c3 c4 c5 c6 c7 c8 c9 c10 c11 c12 c13 c14 c15 c16 c17 c18 c19 c20 c21 c22 c23 c24 c25 c26 c27 c28 c29 c30 c31 c32 c33 c34 c35 : Nat) (rest : List Nat)
    (hrest : deref rest = 0)
    (hd : ∀ c ∈ [c0, c1, c2, c3, c4, c5, c6, c7, c9, c10, c11, c12, c14, c15, c16, c17, c19, c20, c21, c22, c24, c25, c26, c27, c28, c29, c30, c31, c32, c33, c34, c35], isxdigit c = true)
    (h8 : c8 = '-'.toNat) (h13 : c13 = '-'.toNat) (h18 : c18 = '-'.toNat)
    (h23 : c23 = '-'.toNat) :
    hex_digits (c0 :: c1 :: c2 :: c3 :: c4 :: c5 :: c6 :: c7 :: c8 :: c9 :: c10 :: c11 :: c12 :: c13 :: c14 :: c15 :: c16 :: c17 :: c18 :: c19 :: c20 :: c21 :: c22 :: c23 :: c24 :: c25 :: c26 :: c27 :: c28 :: c29 :: c30 :: c31 :: c32 :: c33 :: c34 :: c35 :: rest) =
      [c0, c1, c2, c3, c4, c5, c6, c7, c9, c10, c11, c12, c14, c15, c16, c17, c19, c20, c21, c22, c24, c25, c26, c27, c28, c29, c30, c31, c32, c33, c34, c35] := by
  subst h8 h13 h18 h23
  simp only [List.forall_mem_cons, List.not_mem_nil, false_implies, implies_true, and_true,
    List.mem_cons, List.mem_singleton, forall_eq_or_imp, forall_eq] at hd
  obtain ⟨x0, x1, x2, x3, x4, x5, x6, x7, x9, x10, x11, x12, x14, x15, x16, x17, x19, x20, x21, x22, x24, x25, x26, x27, x28, x29, x30, x31, x32, x33, x34, x35⟩ := hd
  have hy : ('-'.toNat) ≠ 0 := by decide
  unfold hex_digits
  rw [cstring_cons _ _ (isxdigit_ne_zero _ x0), filter_digit _ _ x0]
  rw [cstring_cons _ _ (isxdigit_ne_zero _ x1), filter_digit _ _ x1]
  rw [cstring_cons _ _ (isxdigit_ne_zero _ x2), filter_digit _ _ x2]
  rw [cstring_cons _ _ (isxdigit_ne_zero _ x3), filter_digit _ _ x3]
  rw [cstring_cons _ _ (isxdigit_ne_zero _ x4), filter_digit _ _ x4]
  rw [cstring_cons _ _ (isxdigit_ne_zero _ x5), filter_digit _ _ x5]
  rw [cstring_cons _ _ (isxdigit_ne_zero _ x6), filter_digit _ _ x6]
  rw [cstring_cons _ _ (isxdigit_ne_zero _ x7), filter_digit _ _ x7]
  rw [cstring_cons _ _ hy, filter_hyphen]
  rw [cstring_cons _ _ (isxdigit_ne_zero _ x9), filter_digit _ _ x9]
  rw [cstring_cons _ _ (isxdigit_ne_zero _ x10), filter_digit _ _ x10]
  rw [cstring_cons _ _ (isxdigit_ne_zero _ x11), filter_digit _ _ x11]
  rw [cstring_cons _ _ (isxdigit_ne_zero _ x12), filter_digit _ _ x12]
  rw [cstring_cons _ _ hy, filter_hyphen]
  rw [cstring_cons _ _ (isxdigit_ne_zero _ x14), filter_digit _ _ x14]
  rw [cstring_cons _ _ (isxdigit_ne_zero _ x15), filter_digit _ _ x15]
  rw [cstring_cons _ _ (isxdigit_ne_zero _ x16), filter_digit _ _ x16]
  rw [cstring_cons _ _ (isxdigit_ne_zero _ x17), filter_digit _ _ x17]
  rw [cstring_cons _ _ hy, filter_hyphen]
  rw [cstring_cons _ _ (isxdigit_ne_zero _ x19), filter_digit _ _ x19]
  rw [cstring_cons _ _ (isxdigit_ne_zero _ x20), filter_digit _ _ x20]
  rw [cstring_cons _ _ (isxdigit_ne_zero _ x21), filter_digit _ _ x21]
  rw [cstring_cons _ _ (isxdigit_ne_zero _ x22), filter_digit _ _ x22]
  rw [cstring_cons _ _ hy, filter_hyphen]
  rw [cstring_cons _ _ (isxdigit_ne_zero _ x24), filter_digit _ _ x24]
  rw [cstring_cons _ _ (isxdigit_ne_zero _ x25), filter_digit _ _ x25]
  rw [cstring_cons _ _ (isxdigit_ne_zero _ x26), filter_digit _ _ x26]
  rw [cstring_cons _ _ (isxdigit_ne_zero _ x27), filter_digit _ _ x27]
  rw [cstring_cons _ _ (isxdigit_ne_zero _ x28), filter_digit _ _ x28]
  rw [cstring_cons _ _ (isxdigit_ne_zero _ x29), filter_digit _ _ x29]
  rw [cstring_cons _ _ (isxdigit_ne_zero _ x30), filter_digit _ _ x30]
  rw [cstring_cons _ _ (isxdigit_ne_zero _ x31), filter_digit _ _ x31]
  rw [cstring_cons _ _ (isxdigit_ne_zero _ x32), filter_digit _ _ x32]
  rw [cstring_cons _ _ (isxdigit_ne_zero _ x33), filter_digit _ _ x33]
  rw [cstring_cons _ _ (isxdigit_ne_zero _ x34), filter_digit _ _ x34]
  rw [cstring_cons _ _ (isxdigit_ne_zero _ x35), filter_digit _ _ x35]
  rw [cstring_nul _ hrest]
  rfl

/-- C3: for every accepted string, with `d` its 32 hexadecimal digits in
reading order (hyphens removed), `parts[0]` is the base-16 value of the first
eight digits of `d`, `parts[1]` of the next eight, `parts[2]` of the next
eight and `parts[3]` of the last eight, most significant digit first and
without reduction; and "01234567-89ab-cdef-0123-456789abcdef" is accepted
with parts 0x01234567, 0x89abcdef, 0x01234567, 0x89abcdef. -/
theorem from_string_parts (u0 : Uuid) (s : List Nat) :
    ((uuid_from_string u0 s).1 = true →
        (hex_digits s).length = 32
        ∧ (uuid_from_string u0 s).2.part 0 = hex_value ((hex_digits s).take 8)
        ∧ (uuid_from_string u0 s).2.part 1 = hex_value (((hex_digits s).drop 8).take 8)
        ∧ (uuid_from_string u0 s).2.part 2 = hex_value (((hex_digits s).drop 16).take 8)
        ∧ (uuid_from_string u0 s).2.part 3 = hex_value (((hex_digits s).drop 24).take 8))
      ∧ uuid_from_string u0 (cstr "01234567-89ab-cdef-0123-456789abcdef")
          = (true, ⟨0x01234567, 0x89abcdef, 0x01234567, 0x89abcdef⟩) := by
  constructor
  swap
  · show from_string_loop uuid_template ⟨0, 0, 0, 0⟩ _ = _
    decide
  intro h
  obtain ⟨c0, c1, c2, c3, c4, c5, c6, c7, c8, c9, c10, c11, c12, c13, c14, c15, c16, c17, c18, c19, c20, c21, c22, c23, c24, c25, c26, c27, c28, c29, c30, c31, c32, c33, c34, c35, rest, rfl, hrest, hd, h8, h13, h18, h23⟩ :=
    accepted_shape u0 s h
  rw [from_string_cells u0 _ _ _ _ _ _ _ _ _ _ _ _ _ _ _ _ _ _ _ _ _ _ _ _ _ _ _ _ _ _ _ _ _ _
      _ _ rest hrest hd h8 h13 h18 h23,
    hex_digits_cells _ _ _ _ _ _ _ _ _ _ _ _ _ _ _ _ _ _ _ _ _ _ _ _ _ _ _ _ _ _ _ _ _ _
      _ _ rest hrest hd h8 h13 h18 h23]
  exact ⟨rfl, rfl, rfl, rfl, rfl⟩

/-- The witness of C3: the string "fedcba98-7654-3210-FEDC-BA9876543210". -/
theorem from_string_parts_witness :
    (uuid_from_string ⟨9, 9, 9, 9⟩ (cstr "fedcba98-7654-3210-FEDC-BA9876543210")).1 = true
      ∧ (uuid_from_string ⟨9, 9, 9, 9⟩ (cstr "fedcba98-7654-3210-FEDC-BA9876543210")).2.part 1
          = hex_value (((hex_digits (cstr "fedcba98-7654-3210-FEDC-BA9876543210")).drop 8).take 8) :=
  ⟨by decide,
    ((from_string_parts ⟨9, 9, 9, 9⟩ (cstr "fedcba98-7654-3210-FEDC-BA9876543210")).1
      (by decide)).2.2.1⟩


/-! ## Parsing: the five groups -/

theorem hex_value_eight (x0 x1 x2 x3 x4 x5 x6 x7 : Nat) :
    hex_value [x0, x1, x2, x3, x4, x5, x6, x7]
      = hex_value [x0, x1, x2, x3] * 2 ^ 16 + hex_value [x4, x5, x6, x7] := by
  simp only [hex_value, List.foldl]
  omega

/-- C4, as the code has it: for every accepted string, the first group of 8
digits gives part 0; the second group gives the high 16 bits of part 1 and the
third group its low 16 bits; the fourth group gives the high 16 bits of part 2
and the first 4 digits of the final group its low 16 bits; the last 8 digits
of the final group give part 3. -/
theorem from_string_groups (u0 : Uuid) (s : List Nat)
    (h : (uuid_from_string u0 s).1 = true) :
    (uuid_from_string u0 s).2.part 0 = hex_value (group s 0 8)
      ∧ (uuid_from_string u0 s).2.part 1
          = hex_value (group s 9 4) * 2 ^ 16 + hex_value (group s 14 4)
      ∧ (uuid_from_string u0 s).2.part 2
          = hex_value (group s 19 4) * 2 ^ 16 + hex_value (group s 24 4)
      ∧ (uuid_from_string u0 s).2.part 3 = hex_value (group s 28 8) := by
  obtain ⟨c0, c1, c2, c3, c4, c5, c6, c7, c8, c9, c10, c11, c12, c13, c14, c15, c16, c17, c18, c19, c20, c21, c22, c23, c24, c25, c26, c27, c28, c29, c30, c31, c32, c33, c34, c35, rest, rfl, hrest, hd, h8, h13, h18, h23⟩ :=
    accepted_shape u0 s h
  rw [from_string_cells u0 _ _ _ _ _ _ _ _ _ _ _ _ _ _ _ _ _ _ _ _ _ _ _ _ _ _ _ _ _ _ _ _ _ _
      _ _ rest hrest hd h8 h13 h18 h23]
  refine ⟨rfl, ?_, ?_, rfl⟩
  · exact hex_value_eight _ _ _ _ _ _ _ _
  · exact hex_value_eight _ _ _ _ _ _ _ _

/-- The witness of C4 as amended: "01234567-89ab-cdef-0123-456789abcdef". -/
theorem from_string_groups_witness :
    (uuid_from_string ⟨0, 0, 0, 0⟩ (cstr "01234567-89ab-cdef-0123-456789abcdef")).1 = true
      ∧ (uuid_from_string ⟨0, 0, 0, 0⟩ (cstr "01234567-89ab-cdef-0123-456789abcdef")).2.part 1
          = hex_value (group (cstr "01234567-89ab-cdef-0123-456789abcdef") 9 4) * 2 ^ 16
            + hex_value (group (cstr "01234567-89ab-cdef-0123-456789abcdef") 14 4) :=
  ⟨by decide,
    (from_string_groups ⟨0, 0, 0, 0⟩ (cstr "01234567-89ab-cdef-0123-456789abcdef")
      (by decide)).2.1⟩

/-- C4 as the spec words it fails.  "00000000-0000-0000-0000-000000000000" and
"00000000-0000-0001-0000-000000000000" are accepted and have the same second
group, with parts 1 equal to 0 and to 1: the second group alone does not
determine part 1.  The former and "00000000-0000-0000-0000-000100000000" are
accepted and have the same third group, with parts 2 equal to 0 and to 1: the
third group alone does not determine part 2. -/
theorem from_string_groups_counterexample :
    (uuid_from_string ⟨0, 0, 0, 0⟩ (cstr "00000000-0000-0000-0000-000000000000")).1 = true
      ∧ (uuid_from_string ⟨0, 0, 0, 0⟩ (cstr "00000000-0000-0001-0000-000000000000")).1 = true
      ∧ group (cstr "00000000-0000-0000-0000-000000000000") 9 4
          = group (cstr "00000000-0000-0001-0000-000000000000") 9 4
      ∧ (uuid_from_string ⟨0, 0, 0, 0⟩ (cstr "00000000-0000-0000-0000-000000000000")).2.part 1
          ≠ (uuid_from_string ⟨0, 0, 0, 0⟩
              (cstr "00000000-0000-0001-0000-000000000000")).2.part 1
      ∧ (uuid_from_string ⟨0, 0, 0, 0⟩ (cstr "00000000-0000-0000-0000-000100000000")).1 = true
      ∧ group (cstr "00000000-0000-0000-0000-000000000000") 14 4
          = group (cstr "00000000-0000-0000-0000-000100000000") 14 4
      ∧ (uuid_from_string ⟨0, 0, 0, 0⟩ (cstr "00000000-0000-0000-0000-000000000000")).2.part 2
          ≠ (uuid_from_string ⟨0, 0, 0, 0⟩
              (cstr "00000000-0000-0000-0000-000100000000")).2.part 2 := by
  decide

/-! ## Stringifying and parsing back -/

theorem isxdigit_hex_digit (v : Nat) : isxdigit (hex_digit (v % 16)) = true := by
  have h : v % 16 < 16 := Nat.mod_lt _ (by norm_num)
  generalize v % 16 = d at h
  revert d
  decide

theorem hexit_hex_digit (v : Nat) : hexit_value (hex_digit (v % 16)) = v % 16 := by
  have h : v % 16 < 16 := Nat.mod_lt _ (by norm_num)
  generalize v % 16 = d at h
  revert d
  decide

theorem uuid_to_string_cells (a b c d : Nat) :
    uuid_to_string ⟨a, b, c, d⟩ =
      [hex_digit (a / 16 ^ 7 % 16),
        hex_digit (a / 16 ^ 6 % 16),
        hex_digit (a / 16 ^ 5 % 16),
        hex_digit (a / 16 ^ 4 % 16),
        hex_digit (a / 16 ^ 3 % 16),
        hex_digit (a / 16 ^ 2 % 16),
        hex_digit (a / 16 ^ 1 % 16),
        hex_digit (a / 16 ^ 0 % 16),
        '-'.toNat,
        hex_digit ((b >>> 16) / 16 ^ 3 % 16),
        hex_digit ((b >>> 16) / 16 ^ 2 % 16),
        hex_digit ((b >>> 16) / 16 ^ 1 % 16),
        hex_digit ((b >>> 16) / 16 ^ 0 % 16),
        '-'.toNat,
        hex_digit ((b &&& 0xffff) / 16 ^ 3 % 16),
        hex_digit ((b &&& 0xffff) / 16 ^ 2 % 16),
        hex_digit ((b &&& 0xffff) / 16 ^ 1 % 16),
        hex_digit ((b &&& 0xffff) / 16 ^ 0 % 16),
        '-'.toNat,
        hex_digit ((c >>> 16) / 16 ^ 3 % 16),
        hex_digit ((c >>> 16) / 16 ^ 2 % 16),
        hex_digit ((c >>> 16) / 16 ^ 1 % 16),
        hex_digit ((c >>> 16) / 16 ^ 0 % 16),
        '-'.toNat,
        hex_digit ((c &&& 0xffff) / 16 ^ 3 % 16),
        hex_digit ((c &&& 0xffff) / 16 ^ 2 % 16),
        hex_digit ((c &&& 0xffff) / 16 ^ 1 % 16),
        hex_digit ((c &&& 0xffff) / 16 ^ 0 % 16),
        hex_digit (d / 16 ^ 7 % 16),
        hex_digit (d / 16 ^ 6 % 16),
        hex_digit (d / 16 ^ 5 % 16),
        hex_digit (d / 16 ^ 4 % 16),
        hex_digit (d / 16 ^ 3 % 16),
        hex_digit (d / 16 ^ 2 % 16),
        hex_digit (d / 16 ^ 1 % 16),
        hex_digit (d / 16 ^ 0 % 16)] := rfl

theorem hex_value_field8 (a : Nat) (ha : a < 2 ^ 32) :
    hex_value [hex_digit (a / 16 ^ 7 % 16), hex_digit (a / 16 ^ 6 % 16), hex_digit (a / 16 ^ 5 % 16), hex_digit (a / 16 ^ 4 % 16), hex_digit (a / 16 ^ 3 % 16), hex_digit (a / 16 ^ 2 % 16), hex_digit (a / 16 ^ 1 % 16), hex_digit (a / 16 ^ 0 % 16)] = a := by
  simp only [hex_value, List.foldl, hexit_hex_digit]
  omega

theorem hex_value_field44 (b : Nat) (hb : b < 2 ^ 32) :
    hex_value [hex_digit ((b >>> 16) / 16 ^ 3 % 16), hex_digit ((b >>> 16) / 16 ^ 2 % 16), hex_digit ((b >>> 16) / 16 ^ 1 % 16), hex_digit ((b >>> 16) / 16 ^ 0 % 16), hex_digit ((b &&& 0xffff) / 16 ^ 3 % 16), hex_digit ((b &&& 0xffff) / 16 ^ 2 % 16), hex_digit ((b &&& 0xffff) / 16 ^ 1 % 16), hex_digit ((b &&& 0xffff) / 16 ^ 0 % 16)] = b := by
  have e1 : b &&& 0xffff = b % 65536 := Nat.and_pow_two_sub_one_eq_mod b 16
  simp only [hex_value, List.foldl, hexit_hex_digit, Nat.shiftRight_eq_div_pow, e1]
  omega

theorem to_string_from_string (u0 u : Uuid) (hu : u.wf) :
    uuid_from_string u0 (uuid_to_string u) = (true, u) := by
  obtain ⟨a, b, c, d⟩ := u
  obtain ⟨ha, hb, hc, hd⟩ := hu
  simp only at ha hb hc hd
  rw [uuid_to_string_cells]
  have key := from_string_cells u0
    (hex_digit (a / 16 ^ 7 % 16))
    (hex_digit (a / 16 ^ 6 % 16))
    (hex_digit (a / 16 ^ 5 % 16))
    (hex_digit (a / 16 ^ 4 % 16))
    (hex_digit (a / 16 ^ 3 % 16))
    (hex_digit (a / 16 ^ 2 % 16))
    (hex_digit (a / 16 ^ 1 % 16))
    (hex_digit (a / 16 ^ 0 % 16))
    ('-'.toNat)
    (hex_digit ((b >>> 16) / 16 ^ 3 % 16))
    (hex_digit ((b >>> 16) / 16 ^ 2 % 16))
    (hex_digit ((b >>> 16) / 16 ^ 1 % 16))
    (hex_digit ((b >>> 16) / 16 ^ 0 % 16))
    ('-'.toNat)
    (hex_digit ((b &&& 0xffff) / 16 ^ 3 % 16))
    (hex_digit ((b &&& 0xffff) / 16 ^ 2 % 16))
    (hex_digit ((b &&& 0xffff) / 16 ^ 1 % 16))
    (hex_digit ((b &&& 0xffff) / 16 ^ 0 % 16))
    ('-'.toNat)
    (hex_digit ((c >>> 16) / 16 ^ 3 % 16))
    (hex_digit ((c >>> 16) / 16 ^ 2 % 16))
    (hex_digit ((c >>> 16) / 16 ^ 1 % 16))
    (hex_digit ((c >>> 16) / 16 ^ 0 % 16))
    ('-'.toNat)
    (hex_digit ((c &&& 0xffff) / 16 ^ 3 % 16))
    (hex_digit ((c &&& 0xffff) / 16 ^ 2 % 16))
    (hex_digit ((c &&& 0xffff) / 16 ^ 1 % 16))
    (hex_digit ((c &&& 0xffff) / 16 ^ 0 % 16))
    (hex_digit (d / 16 ^ 7 % 16))
    (hex_digit (d / 16 ^ 6 % 16))
    (hex_digit (d / 16 ^ 5 % 16))
    (hex_digit (d / 16 ^ 4 % 16))
    (hex_digit (d / 16 ^ 3 % 16))
    (hex_digit (d / 16 ^ 2 % 16))
    (hex_digit (d / 16 ^ 1 % 16))
    (hex_digit (d / 16 ^ 0 % 16))
    [] rfl
    (by
      intro x hx
      simp only [List.mem_cons, List.mem_singleton, List.not_mem_nil, or_false] at hx
      rcases hx with rfl | rfl | rfl | rfl | rfl | rfl | rfl | rfl | rfl | rfl | rfl | rfl | rfl | rfl | rfl | rfl | rfl | rfl | rfl | rfl | rfl | rfl | rfl | rfl | rfl | rfl | rfl | rfl | rfl | rfl | rfl | rfl <;>
        exact isxdigit_hex_digit _)
    rfl rfl rfl rfl
  rw [key]
  rw [hex_value_field8 a ha, hex_value_field8 d hd, hex_value_field44 b hb,
    hex_value_field44 c hc]

theorem generate_wf {Key : Type} (P : Prims Key) (sys : Sys) (st st2 : State Key) (u : Uuid)
    (h : uuid_generate P sys st = some (st2, u)) : u.wf := by
  obtain ⟨st1, -, -, -, -, -, h0, h1, h2, h3⟩ := uuid_generate_eq P sys st st2 u h
  unfold Uuid.wf
  rw [h0, h1, h2, h3]
  refine ⟨?_, ?_, ?_, ?_⟩ <;> exact Nat.mod_lt _ (by norm_num)

/-- C5: for every identifier `u` whose parts are 32-bit values, and so for
every identifier that `uuid_generate` produces, `uuid_from_string` applied to
the canonical 8-4-4-4-12 string of `u` returns true and leaves an identifier
equal to `u`, whatever the output identifier held before. -/
theorem to_string_roundtrip {Key : Type} (P : Prims Key) (sys : Sys) (st st2 : State Key)
    (u0 u : Uuid) :
    (u.wf → uuid_from_string u0 (uuid_to_string u) = (true, u))
      ∧ (uuid_generate P sys st = some (st2, u) →
          uuid_from_string u0 (uuid_to_string u) = (true, u)) := by
  constructor
  · intro hu
    exact to_string_from_string u0 u hu
  · intro h
    exact to_string_from_string u0 u (generate_wf P sys st st2 u h)

/-- The witness of C5: the identifier generated first from counter 0 with the
word-moving cipher, whose string is "00000000-0000-4001-8000-000000000000". -/
theorem to_string_roundtrip_witness :
    uuid_to_string ⟨0, 0x4001, 0x80000000, 0⟩ = cstr "00000000-0000-4001-8000-000000000000"
      ∧ uuid_from_string ⟨7, 7, 7, 7⟩ (uuid_to_string ⟨0, 0x4001, 0x80000000, 0⟩)
          = (true, ⟨0, 0x4001, 0x80000000, 0⟩)
      ∧ uuid_from_string ⟨7, 7, 7, 7⟩ (uuid_to_string ⟨0, 0x4001, 0x80000000, 0⟩)
          = (true, ⟨0, 0x4001, 0x80000000, 0⟩) :=
  ⟨by decide,
    (to_string_roundtrip wordPrims goodSys zeroState ⟨true, 5, 0, 1⟩ ⟨7, 7, 7, 7⟩
      ⟨0, 0x4001, 0x80000000, 0⟩).1 (by unfold Uuid.wf; decide),
    (to_string_roundtrip wordPrims goodSys zeroState ⟨true, 5, 0, 1⟩ ⟨7, 7, 7, 7⟩
      ⟨0, 0x4001, 0x80000000, 0⟩).2 rfl⟩

/-! ## Successive calls of `uuid_generate` -/

theorem counter_add_zero (c0 c1 : Nat) (h0 : c0 < 2 ^ 64) (h1 : c1 < 2 ^ 64) :
    counter_add c0 c1 0 = (c0, c1) := by
  unfold counter_add
  refine Prod.ext ?_ ?_ <;> simp only <;> omega

theorem counter_add_lt (c0 c1 k : Nat) :
    (counter_add c0 c1 k).1 < 2 ^ 64 ∧ (counter_add c0 c1 k).2 < 2 ^ 64 := by
  unfold counter_add
  constructor <;> simp only <;> omega

theorem counter_add_add (c0 c1 k : Nat) :
    counter_add (counter_add c0 c1 1).1 (counter_add c0 c1 1).2 k = counter_add c0 c1 (k + 1) := by
  unfold counter_add
  refine Prod.ext ?_ ?_ <;> simp only <;> omega

/-- The increment of `uuid_generate` is `counter_add` by one. -/
theorem counter_step (c0 c1 : Nat) (h0 : c0 < 2 ^ 64) (h1 : c1 < 2 ^ 64) :
    ((if (c1 + 1) % 2 ^ 64 = 0 then (c0 + 1) % 2 ^ 64 else c0), (c1 + 1) % 2 ^ 64)
      = counter_add c0 c1 1 := by
  unfold counter_add
  refine Prod.ext ?_ ?_
  · simp only
    split_ifs <;> omega
  · simp only
    omega

theorem counter_add_ne (c0 c1 i j : Nat) (hij : i < j) (hd : j - i < 2 ^ 128) :
    counter_add c0 c1 i ≠ counter_add c0 c1 j := by
  unfold counter_add
  intro h
  have h1 := congrArg Prod.fst h
  have h2 := congrArg Prod.snd h
  simp only at h1 h2
  omega

/-- One call of `uuid_generate` in an initialized module. -/
theorem generate_inited {Key : Type} (P : Prims Key) (sys : Sys) (st : State Key)
    (hin : st.inited = true) (hwf : st.wf) :
    uuid_generate P sys st =
      some ({ st with
              counter0 := (counter_add st.counter0 st.counter1 1).1
              counter1 := (counter_add st.counter0 st.counter1 1).2 },
            random_bits (nth_block P st 0)) := by
  have hs := counter_step st.counter0 st.counter1 hwf.1 hwf.2
  have hs0 := congrArg Prod.fst hs
  have hs1 := congrArg Prod.snd hs
  simp only at hs0 hs1
  unfold uuid_generate
  rw [uuid_init_inited P sys st hin]
  simp only [nth_block, random_bits, ← hs0, ← hs1, ← hs]

/-- The identifiers of `n` successive calls in an initialized module. -/
theorem generate_seq_inited {Key : Type} (P : Prims Key) (sys : Sys) (n : Nat)
    (st : State Key) (hin : st.inited = true) (hwf : st.wf) :
    generate_seq P sys n st =
      some ({ st with
              counter0 := (counter_add st.counter0 st.counter1 n).1
              counter1 := (counter_add st.counter0 st.counter1 n).2 },
            (List.range n).map (fun i => random_bits (nth_block P st i))) := by
  induction n generalizing st with
  | zero =>
    rw [counter_add_zero _ _ hwf.1 hwf.2]
    rfl
  | succ n ih =>
    rw [generate_seq, generate_inited P sys st hin hwf]
    simp only
    rw [ih ⟨st.inited, st.key, (counter_add st.counter0 st.counter1 1).1,
      (counter_add st.counter0 st.counter1 1).2⟩ hin (counter_add_lt _ _ _)]
    simp only [counter_add_add, nth_block, List.range_succ_eq_map, List.map_cons, List.map_map]
    rfl

theorem random_bits_eq (x : Uuid) :
    random_bits x =
      ⟨x.p0, ((x.p1 &&& not32 0x0000f000) % 2 ^ 32 ||| 0x00004000) % 2 ^ 32,
        ((x.p2 &&& not32 0xc0000000) % 2 ^ 32 ||| 0x80000000) % 2 ^ 32, x.p3⟩ := rfl

/-- Two blocks get the same identifier exactly when they agree outside the
version and variant bits. -/
theorem random_bits_eq_iff (x y : Uuid) :
    random_bits x = random_bits y ↔
      (x.p0 = y.p0 ∧ x.p1 &&& not32 0x0000f000 = y.p1 &&& not32 0x0000f000
        ∧ x.p2 &&& not32 0xc0000000 = y.p2 &&& not32 0xc0000000 ∧ x.p3 = y.p3) := by
  rw [random_bits_eq, random_bits_eq]
  simp only [Uuid.mk.injEq]
  constructor
  · rintro ⟨h0, h1, h2, h3⟩
    refine ⟨h0, ?_, ?_, h3⟩
    · have e := congrArg (fun v => v &&& not32 0x0000f000) h1
      simp only at e
      rw [clear_then_set_outside _ _ _ (by norm_num) (by decide),
        clear_then_set_outside _ _ _ (by norm_num) (by decide)] at e
      exact e
    · have e := congrArg (fun v => v &&& not32 0xc0000000) h2
      simp only at e
      rw [clear_then_set_outside _ _ _ (by norm_num) (by decide),
        clear_then_set_outside _ _ _ (by norm_num) (by decide)] at e
      exact e
  · rintro ⟨h0, h1, h2, h3⟩
    rw [h0, h1, h2, h3]
    exact ⟨rfl, rfl, rfl, rfl⟩

theorem wordPrims_injective : cipher_injective wordPrims := by
  intro k c0 c1 d0 d1 hc0 hc1 hd0 hd1 h
  simp only [wordPrims, store_block, Uuid.mk.injEq] at h
  obtain ⟨h0, h1, h2, h3⟩ := h
  refine Prod.ext ?_ ?_ <;> simp only <;> omega

/-- C7, as the code has it: in an initialized module whose cipher is
injective, `n` successive calls of `uuid_generate` return `n` identifiers, and
any two of these calls fewer than `2^128` calls apart encrypt different
counter values and so get different blocks from the cipher; the two
identifiers returned are each the block with its version and variant bits
overwritten, and they are equal exactly when the two blocks agree in parts 0
and 3 and in the bits of parts 1 and 2 outside the masks `0x0000f000` and
`0xc0000000`. -/
theorem generate_calls_distinct {Key : Type} (P : Prims Key) (sys : Sys) (st : State Key)
    (hin : st.inited = true) (hwf : st.wf) (hinj : cipher_injective P)
    (n i j : Nat) (hij : i < j) (hjn : j < n) (hd : j - i < 2 ^ 128) :
    ∃ st2 us, generate_seq P sys n st = some (st2, us) ∧ us.length = n
      ∧ us[i]? = some (random_bits (nth_block P st i))
      ∧ us[j]? = some (random_bits (nth_block P st j))
      ∧ counter_add st.counter0 st.counter1 (i + 1) ≠ counter_add st.counter0 st.counter1 (j + 1)
      ∧ nth_block P st i ≠ nth_block P st j
      ∧ (random_bits (nth_block P st i) = random_bits (nth_block P st j) ↔
          ((nth_block P st i).part 0 = (nth_block P st j).part 0
            ∧ (nth_block P st i).part 1 &&& not32 0x0000f000
                = (nth_block P st j).part 1 &&& not32 0x0000f000
            ∧ (nth_block P st i).part 2 &&& not32 0xc0000000
                = (nth_block P st j).part 2 &&& not32 0xc0000000
            ∧ (nth_block P st i).part 3 = (nth_block P st j).part 3)) := by
  have hne : counter_add st.counter0 st.counter1 (i + 1)
      ≠ counter_add st.counter0 st.counter1 (j + 1) :=
    counter_add_ne _ _ _ _ (by omega) (by omega)
  refine ⟨_, _, generate_seq_inited P sys n st hin hwf, by simp, ?_, ?_, hne, ?_, ?_⟩
  · rw [List.getElem?_map, List.getElem?_range (by omega)]
    rfl
  · rw [List.getElem?_map, List.getElem?_range hjn]
    rfl
  · intro h
    apply hne
    have bi := counter_add_lt st.counter0 st.counter1 (i + 1)
    have bj := counter_add_lt st.counter0 st.counter1 (j + 1)
    exact hinj st.key _ _ _ _ bi.1 bi.2 bj.1 bj.2 h
  · exact random_bits_eq_iff _ _

/-- The witness of C7 as amended: the first two of three calls made with the
word-moving cipher from counter 0. -/
theorem generate_calls_distinct_witness :
    ∃ st2 us, generate_seq wordPrims goodSys 3 zeroState = some (st2, us)
      ∧ us[0]? = some (random_bits (nth_block wordPrims zeroState 0))
      ∧ us[1]? = some (random_bits (nth_block wordPrims zeroState 1))
      ∧ nth_block wordPrims zeroState 0 ≠ nth_block wordPrims zeroState 1 := by
  obtain ⟨st2, us, h1, -, h2, h3, -, h4, -⟩ :=
    generate_calls_distinct wordPrims goodSys zeroState rfl (by unfold State.wf; decide)
      wordPrims_injective 3 0 1 (by decide) (by decide) (by norm_num)
  exact ⟨st2, us, h1, h2, h3, h4⟩

/-- C7 as the spec words it fails: the word-moving cipher is injective, yet of
10,000 successive calls made from counter 0 the first and the 4097th return
the same identifier.  The two calls encrypt the counters 1 and 0x1001, the
cipher puts the low 32 bits of the counter in part 1, and overwriting the
version bits (mask `0x0000f000`) leaves `0x4001` both times. -/
theorem generate_calls_distinct_counterexample :
    zeroState.inited = true ∧ cipher_injective wordPrims
      ∧ ∃ st2 us, generate_seq wordPrims goodSys 10000 zeroState = some (st2, us)
          ∧ us[0]? = some ⟨0, 0x4001, 0x80000000, 0⟩
          ∧ us[4096]? = some ⟨0, 0x4001, 0x80000000, 0⟩ := by
  refine ⟨rfl, wordPrims_injective, _, _,
    generate_seq_inited wordPrims goodSys 10000 zeroState rfl (by unfold State.wf; decide),
    ?_, ?_⟩
  · rw [List.getElem?_map, List.getElem?_range (by norm_num)]
    rfl
  · rw [List.getElem?_map, List.getElem?_range (by norm_num)]
    rfl

/-! ## Initialization -/

theorem do_init_none_iff {Key : Type} (P : Prims Key) (sys : Sys) (st : State Key) :
    do_init P sys st = none ↔ sys.fails := by
  unfold do_init Sys.fails
  cases h1 : sys.urandom_seed <;> cases h2 : sys.gettimeofday <;>
    cases h3 : sys.urandom_counter <;> simp [read_urandom]

theorem do_init_some {Key : Type} (P : Prims Key) (sys : Sys) (st st1 : State Key)
    (h : do_init P sys st = some st1) :
    st1.inited = st.inited ∧ st1.wf
      ∧ ∃ seed, sys.urandom_seed = .ok seed
          ∧ st1.key = P.aes128_schedule
              ((P.sha1 (seed ++ P.pid_bytes sys.getpid ++ P.pid_bytes sys.getppid
                ++ P.uid_bytes sys.getuid ++ P.gid_bytes sys.getgid)).take 16) := by
  unfold do_init at h
  cases h1 : sys.urandom_seed <;> cases h2 : sys.gettimeofday <;>
    cases h3 : sys.urandom_counter <;> simp [read_urandom, h1, h2, h3] at h
  subst h
  refine ⟨rfl, ⟨?_, ?_⟩, _, rfl, ?_⟩
  · exact Nat.mod_lt _ (by norm_num)
  · exact Nat.mod_lt _ (by norm_num)
  · simp only [List.append_assoc]

theorem uuid_init_none_iff {Key : Type} (P : Prims Key) (sys : Sys) (st : State Key)
    (hst : st.inited = false) : uuid_init P sys st = none ↔ sys.fails := by
  rw [← do_init_none_iff P sys st]
  unfold uuid_init
  cases h : do_init P sys st <;> simp [hst]

theorem uuid_init_some {Key : Type} (P : Prims Key) (sys : Sys) (st st1 : State Key)
    (hwf : st.wf) (h : uuid_init P sys st = some st1) :
    st1.inited = true ∧ st1.wf := by
  unfold uuid_init at h
  by_cases hin : st.inited = true
  · simp [hin] at h
    subst h
    exact ⟨hin, hwf⟩
  · have hin2 : st.inited = false := by simpa using hin
    cases hd : do_init P sys st with
    | none => simp [hin2, hd] at h
    | some st0 =>
      simp only [hin2, hd, Bool.false_eq_true, not_false_eq_true, if_true,
        Option.some.injEq] at h
      subst h
      exact ⟨rfl, (do_init_some P sys st st0 hd).2.1⟩

theorem uuid_generate_none_iff {Key : Type} (P : Prims Key) (sys : Sys) (st : State Key) :
    uuid_generate P sys st = none ↔ uuid_init P sys st = none := by
  unfold uuid_generate
  cases h : uuid_init P sys st <;> simp

theorem generate_seq_isSome {Key : Type} (P : Prims Key) (sys : Sys) (n : Nat)
    (st : State Key) (hwf : st.wf) (h : (uuid_init P sys st).isSome = true) :
    (generate_seq P sys n st).isSome = true := by
  cases n with
  | zero => rfl
  | succ n =>
    rw [generate_seq]
    cases hg : uuid_generate P sys st with
    | none =>
      rw [(uuid_generate_none_iff P sys st).1 hg] at h
      simp at h
    | some r =>
      obtain ⟨st2, u⟩ := r
      obtain ⟨st1, h1, hc1, hc0, hk, hi, -⟩ := uuid_generate_eq P sys st st2 u hg
      obtain ⟨hin1, hwf1⟩ := uuid_init_some P sys st st1 hwf h1
      have hin2 : st2.inited = true := by rw [hi, hin1]
      have hwf2 : st2.wf := by
        have := hwf1.1
        constructor
        · rw [hc0]
          split_ifs
          · exact Nat.mod_lt _ (by norm_num)
          · exact hwf1.1
        · rw [hc1]
          exact Nat.mod_lt _ (by norm_num)
      simp only
      rw [generate_seq_inited P sys n st2 hin2 hwf2]
      rfl

/-- C16: in a module not yet initialized, `uuid_init` aborts exactly when
/dev/urandom cannot be opened, one of its two reads hits end of file or a
read error, or `gettimeofday` fails, and so does `uuid_generate`, returning
no identifier; when none of these happens `uuid_init` returns with the module
marked initialized, and any number of calls of `uuid_generate`, before or
after it, all return an identifier. -/
theorem init_fails_iff {Key : Type} (P : Prims Key) (sys : Sys) (st : State Key)
    (hst : st.inited = false) (hwf : st.wf) :
    (uuid_init P sys st = none ↔ sys.fails)
      ∧ (uuid_generate P sys st = none ↔ sys.fails)
      ∧ (¬ sys.fails →
          ∃ st1, uuid_init P sys st = some st1 ∧ st1.inited = true
            ∧ (∀ n, (generate_seq P sys n st).isSome = true)
            ∧ (∀ n, (generate_seq P sys n st1).isSome = true)) := by
  have h1 := uuid_init_none_iff P sys st hst
  refine ⟨h1, ?_, ?_⟩
  · rw [uuid_generate_none_iff, h1]
  · intro hok
    cases hi : uuid_init P sys st with
    | none => exact absurd (h1.1 hi) hok
    | some st1 =>
      obtain ⟨hin1, hwf1⟩ := uuid_init_some P sys st st1 hwf hi
      refine ⟨st1, rfl, hin1, ?_, ?_⟩
      · intro n
        exact generate_seq_isSome P sys n st hwf (by rw [hi]; rfl)
      · intro n
        exact generate_seq_isSome P sys n st1 hwf1
          (by rw [uuid_init_inited P sys st1 hin1]; rfl)

/-- The witness of C16: /dev/urandom missing, and a system on which every
call succeeds. -/
theorem init_fails_iff_witness :
    uuid_init wordPrims noUrandomSys freshState = none
      ∧ uuid_generate wordPrims noUrandomSys freshState = none
      ∧ ∃ st1, uuid_init wordPrims goodSys freshState = some st1 ∧ st1.inited = true
          ∧ (∀ n, (generate_seq wordPrims goodSys n freshState).isSome = true)
          ∧ (∀ n, (generate_seq wordPrims goodSys n st1).isSome = true) :=
  ⟨(init_fails_iff wordPrims noUrandomSys freshState rfl (by unfold State.wf; decide)).1.2
      (by unfold Sys.fails; decide),
    (init_fails_iff wordPrims noUrandomSys freshState rfl (by unfold State.wf; decide)).2.1.2
      (by unfold Sys.fails; decide),
    (init_fails_iff wordPrims goodSys freshState rfl (by unfold State.wf; decide)).2.2
      (by unfold Sys.fails; decide)⟩

/-! ## The counter -/

/-- C12: the counter step of `uuid_generate` is a two-word increment with
carry.  With `st1` the state `uuid_init` leaves and `st2` the state after the
call: if `counter[1]` is `2^64 - 1` before the step, afterwards `counter[1]`
is 0 and `counter[0]` has increased by one modulo `2^64`; otherwise
`counter[1]` has increased by one and `counter[0]` is unchanged. -/
theorem counter_step_carry {Key : Type} (P : Prims Key) (sys : Sys) (st st2 : State Key)
    (u : Uuid) (hwf : st.wf) (h : uuid_generate P sys st = some (st2, u)) :
    ∃ st1, uuid_init P sys st = some st1
      ∧ (st.inited = true → st1 = st)
      ∧ (st1.counter1 = 2 ^ 64 - 1 →
          st2.counter1 = 0 ∧ st2.counter0 = (st1.counter0 + 1) % 2 ^ 64)
      ∧ (st1.counter1 ≠ 2 ^ 64 - 1 →
          st2.counter1 = st1.counter1 + 1 ∧ st2.counter0 = st1.counter0) := by
  obtain ⟨st1, h1, hc1, hc0, -⟩ := uuid_generate_eq P sys st st2 u h
  obtain ⟨-, hwf1⟩ := uuid_init_some P sys st st1 hwf h1
  have b1 := hwf1.2
  refine ⟨st1, h1, ?_, ?_, ?_⟩
  · intro hin
    rw [uuid_init_inited P sys st hin] at h1
    exact (Option.some.inj h1).symm
  · intro hmax
    rw [hc1, hc0, hmax]
    constructor
    · norm_num
    · norm_num
  · intro hne
    rw [hc1, hc0]
    have e : (st1.counter1 + 1) % 2 ^ 64 = st1.counter1 + 1 := Nat.mod_eq_of_lt (by omega)
    rw [e]
    exact ⟨rfl, if_neg (by omega)⟩

/-- The witness of C12: counter (3, 2^64 - 1) becomes (4, 0). -/
theorem counter_step_carry_witness :
    ∃ st1, uuid_init wordPrims goodSys carryState = some st1
      ∧ uuid_generate wordPrims goodSys carryState
          = some (⟨true, 5, 4, 0⟩, ⟨0, 0x4000, 0x80000004, 0⟩)
      ∧ (carryState.inited = true → st1 = carryState)
      ∧ (st1.counter1 = 2 ^ 64 - 1 →
          (⟨true, 5, 4, 0⟩ : State Nat).counter1 = 0
            ∧ (⟨true, 5, 4, 0⟩ : State Nat).counter0 = (st1.counter0 + 1) % 2 ^ 64)
      ∧ (st1.counter1 ≠ 2 ^ 64 - 1 →
          (⟨true, 5, 4, 0⟩ : State Nat).counter1 = st1.counter1 + 1
            ∧ (⟨true, 5, 4, 0⟩ : State Nat).counter0 = st1.counter0) :=
  (counter_step_carry wordPrims goodSys carryState ⟨true, 5, 4, 0⟩
    ⟨0, 0x4000, 0x80000004, 0⟩ (by unfold State.wf; decide) rfl).imp
    (fun _ h => ⟨h.1, rfl, h.2⟩)

theorem counter_add_value (c0 c1 k : Nat) :
    (counter_add c0 c1 k).1 * 2 ^ 64 + (counter_add c0 c1 k).2
      = (c0 * 2 ^ 64 + c1 + k) % 2 ^ 128 := by
  unfold counter_add
  simp only
  omega

/-- The calls of `uuid_init` and `uuid_generate` in an initialized module. -/
theorem run_calls_inited {Key : Type} (P : Prims Key) (sys : Sys) (calls : List Call)
    (st : State Key) (hin : st.inited = true) (hwf : st.wf) :
    run_calls P sys calls st =
      some (⟨true, st.key, (counter_add st.counter0 st.counter1 (calls.count .generate)).1,
              (counter_add st.counter0 st.counter1 (calls.count .generate)).2⟩,
            (List.range (calls.count .generate)).map
              (fun i => random_bits (nth_block P st i))) := by
  induction calls generalizing st with
  | nil =>
    rw [List.count_nil, counter_add_zero _ _ hwf.1 hwf.2, run_calls, ← hin]
    rfl
  | cons c calls ih =>
    cases c with
    | init =>
      rw [run_calls, uuid_init_inited P sys st hin]
      simp only
      rw [ih st hin hwf, List.count_cons_of_ne (by decide)]
    | generate =>
      rw [run_calls, generate_inited P sys st hin hwf]
      simp only
      rw [ih ⟨st.inited, st.key, (counter_add st.counter0 st.counter1 1).1,
        (counter_add st.counter0 st.counter1 1).2⟩ hin (counter_add_lt _ _ _)]
      simp only [counter_add_add, nth_block, List.count_cons_self, List.range_succ_eq_map,
        List.map_cons, List.map_map]
      rfl

/-- C13: once `uuid_init` has returned, leaving the state `st1`, any further
sequence of calls of `uuid_init` and `uuid_generate` runs without reading the
system (`sys2` is arbitrary, it may even fail every call): `uuid_init`
returns every state the sequence reaches unchanged, and the sequence ends
with the module initialized, the key that of `st1`, and the counter that of
`st1` plus the number of `uuid_generate` calls, modulo `2^128`. -/
theorem init_idempotent {Key : Type} (P : Prims Key) (sys : Sys) (st st1 : State Key)
    (hwf : st.wf) (hfirst : uuid_init P sys st = some st1) (sys2 : Sys) (calls : List Call) :
    st1.inited = true
      ∧ (∀ n, uuid_init P sys2
            ⟨true, st1.key, (counter_add st1.counter0 st1.counter1 n).1,
              (counter_add st1.counter0 st1.counter1 n).2⟩
          = some ⟨true, st1.key, (counter_add st1.counter0 st1.counter1 n).1,
              (counter_add st1.counter0 st1.counter1 n).2⟩)
      ∧ ∃ st2 us, run_calls P sys2 calls st1 = some (st2, us)
          ∧ st2 = ⟨true, st1.key,
              (counter_add st1.counter0 st1.counter1 (calls.count .generate)).1,
              (counter_add st1.counter0 st1.counter1 (calls.count .generate)).2⟩
          ∧ st2.counter_value = (st1.counter_value + calls.count .generate) % 2 ^ 128
          ∧ us.length = calls.count .generate := by
  obtain ⟨hin1, hwf1⟩ := uuid_init_some P sys st st1 hwf hfirst
  refine ⟨hin1, ?_, _, _, run_calls_inited P sys2 calls st1 hin1 hwf1, rfl, ?_, by simp⟩
  · intro n
    exact uuid_init_inited P sys2 _ rfl
  · exact counter_add_value _ _ _

/-- The witness of C13: a module initialized on a good system, then run on
one where /dev/urandom cannot be opened. -/
theorem init_idempotent_witness :
    uuid_init wordPrims goodSys freshState = some ⟨true, 112, 9, 9⟩
      ∧ ∃ st2 us, run_calls wordPrims noUrandomSys
            [.generate, .init, .generate, .init, .init, .generate] ⟨true, 112, 9, 9⟩
          = some (st2, us)
          ∧ st2 = ⟨true, 112, 9, 12⟩ :=
  ⟨rfl,
    (init_idempotent wordPrims goodSys freshState ⟨true, 112, 9, 9⟩
      (by unfold State.wf; decide) rfl noUrandomSys
      [.generate, .init, .generate, .init, .init, .generate]).2.2.imp
      (fun _ h => h.imp (fun _ h2 => ⟨h2.1, h2.2.1⟩))⟩

/-- C14, what the code does: the key and the counter `do_init` leaves do not
depend on the time `gettimeofday` stored.  Two systems that differ in nothing
but that time get the same state, whatever the hash, the cipher and the other
answers are: the time is captured and never fed to the hash. -/
theorem do_init_ignores_clock {Key : Type} (P : Prims Key) (sys : Sys) (st : State Key)
    (now1 now2 : Nat × Nat) :
    do_init P { sys with gettimeofday := some now1 } st
      = do_init P { sys with gettimeofday := some now2 } st := by
  unfold do_init
  rfl

/-- C17: reading `counter` as the number `counter[0] * 2^64 + counter[1]`, `n`
successive calls of `uuid_generate` in an initialized module take it from `c`
to `(c + n) mod 2^128`; the call after `i` earlier ones encrypts the counter
of value `(c + i + 1) mod 2^128`, and the counters encrypted by two calls
fewer than `2^128` calls apart are different. -/
theorem counter_after_calls {Key : Type} (P : Prims Key) (sys : Sys) (st : State Key)
    (hin : st.inited = true) (hwf : st.wf) (n : Nat) :
    ∃ st2 us, generate_seq P sys n st = some (st2, us)
      ∧ st2.counter_value = (st.counter_value + n) % 2 ^ 128
      ∧ st2.wf
      ∧ (∀ i, i < n →
          us[i]? = some (random_bits (store_block
              (P.aes128_encrypt st.key (counter_add st.counter0 st.counter1 (i + 1)))))
            ∧ (counter_add st.counter0 st.counter1 (i + 1)).1 * 2 ^ 64
                + (counter_add st.counter0 st.counter1 (i + 1)).2
                = (st.counter_value + (i + 1)) % 2 ^ 128)
      ∧ (∀ i j, i < j → j - i < 2 ^ 128 →
          counter_add st.counter0 st.counter1 (i + 1)
            ≠ counter_add st.counter0 st.counter1 (j + 1)) := by
  refine ⟨_, _, generate_seq_inited P sys n st hin hwf, ?_, counter_add_lt _ _ _, ?_, ?_⟩
  · exact counter_add_value _ _ _
  · intro i hi
    refine ⟨?_, counter_add_value _ _ _⟩
    rw [List.getElem?_map, List.getElem?_range hi]
    rfl
  · intro i j hij hd
    exact counter_add_ne _ _ _ _ (by omega) (by omega)

/-- The witness of C17: five calls from counter (3, 2^64 - 1). -/
theorem counter_after_calls_witness :
    ∃ st2 us, generate_seq wordPrims goodSys 5 carryState = some (st2, us)
      ∧ st2.counter_value = (carryState.counter_value + 5) % 2 ^ 128 :=
  (counter_after_calls wordPrims goodSys carryState rfl (by unfold State.wf; decide) 5).imp
    (fun _ h => h.imp (fun _ h2 => ⟨h2.1, h2.2.1⟩))

/-- C18: in an initialized module `uuid_generate` returns the block the cipher
gives for the key and the counter as incremented, which is the counter the
call leaves in the module, except in the four version bits of `parts[1]`
(mask `0x0000f000`) and the two variant bits of `parts[2]` (mask
`0xc0000000`): parts 0 and 3 are those of the block, and so are the other 28
bits of part 1 and the other 30 bits of part 2. -/
theorem generate_keeps_block {Key : Type} (P : Prims Key) (sys : Sys) (st : State Key)
    (hin : st.inited = true) (hwf : st.wf) :
    ∃ st2 u, uuid_generate P sys st = some (st2, u)
      ∧ st2.counter_value = (st.counter_value + 1) % 2 ^ 128
      ∧ st2.key = st.key
      ∧ u.part 0 = (store_block (P.aes128_encrypt st.key (st2.counter0, st2.counter1))).part 0
      ∧ u.part 3 = (store_block (P.aes128_encrypt st.key (st2.counter0, st2.counter1))).part 3
      ∧ u.part 1 &&& 0xffff0fff
          = (store_block (P.aes128_encrypt st.key (st2.counter0, st2.counter1))).part 1
              &&& 0xffff0fff
      ∧ u.part 2 &&& 0x3fffffff
          = (store_block (P.aes128_encrypt st.key (st2.counter0, st2.counter1))).part 2
              &&& 0x3fffffff := by
  refine ⟨_, _, generate_inited P sys st hin hwf, ?_, rfl, rfl, rfl, ?_, ?_⟩
  · exact counter_add_value _ _ _
  · have e : (0xffff0fff : Nat) = not32 0x0000f000 := by decide
    rw [e]
    exact clear_then_set_outside _ _ _ (by norm_num) (by decide)
  · have e : (0x3fffffff : Nat) = not32 0xc0000000 := by decide
    rw [e]
    exact clear_then_set_outside _ _ _ (by norm_num) (by decide)

/-- The witness of C18: the call made from counter (3, 2^64 - 1). -/
theorem generate_keeps_block_witness :
    ∃ st2 u, uuid_generate wordPrims goodSys carryState = some (st2, u)
      ∧ st2.counter_value = (carryState.counter_value + 1) % 2 ^ 128 :=
  (generate_keeps_block wordPrims goodSys carryState rfl (by unfold State.wf; decide)).imp
    (fun _ h => h.imp (fun _ h2 => ⟨h2.1, h2.2.1⟩))

/-! ## Parsing: letter case -/

theorem other_case_large (x : Nat) (h : 103 ≤ x) : other_case x = x := by
  unfold other_case
  have ea : 'a'.toNat = 97 := rfl
  have ef : 'f'.toNat = 102 := rfl
  have eA : 'A'.toNat = 65 := rfl
  have eF : 'F'.toNat = 70 := rfl
  rw [ea, ef, eA, eF]
  split_ifs <;> omega

theorem isxdigit_other_case (x : Nat) : isxdigit (other_case x) = isxdigit x := by
  by_cases h : x < 103
  · revert x
    decide
  · rw [other_case_large x (by omega)]

theorem hexit_other_case (x : Nat) : hexit_value (other_case x) = hexit_value x := by
  by_cases h : x < 103
  · revert x
    decide
  · rw [other_case_large x (by omega)]

theorem other_case_involutive (x : Nat) : other_case (other_case x) = x := by
  by_cases h : x < 103
  · revert x
    decide
  · rw [other_case_large x (by omega), other_case_large x (by omega)]

theorem flip_case_nil (s : List Nat) : flip_case [] s = s := by
  cases s <;> rfl

theorem flip_case_empty (mask : List Bool) : flip_case mask [] = [] := by
  cases mask <;> simp [flip_case]

theorem flip_case_tail (mask : List Bool) (s : List Nat) :
    (flip_case mask s).tail = flip_case mask.tail s.tail := by
  cases s with
  | nil => simp [flip_case_empty]
  | cons c s =>
    cases mask with
    | nil => simp [flip_case, flip_case_nil]
    | cons b mask => simp [flip_case]

theorem flip_case_deref (mask : List Bool) (s : List Nat) :
    deref (flip_case mask s) = deref s ∨ deref (flip_case mask s) = other_case (deref s) := by
  cases s with
  | nil => rw [flip_case_empty]; exact Or.inl rfl
  | cons c s =>
    cases mask with
    | nil => exact Or.inl rfl
    | cons b mask =>
      cases b
      · exact Or.inl rfl
      · exact Or.inr rfl

/-- The loop does not see the case of the letters of `s`, as long as the
template holds no hexadecimal letter. -/
theorem loop_flip_case (t : List Nat) (ht0 : ∀ c ∈ t, c ≠ 0)
    (ht : ∀ c ∈ t, other_case c = c) (u : Uuid) (mask : List Bool) (s : List Nat) :
    from_string_loop t u (flip_case mask s) = from_string_loop t u s := by
  induction t generalizing u mask s with
  | nil =>
    rw [loop_nil, loop_nil]
    have h0 : deref (flip_case mask s) = 0 ↔ deref s = 0 := by
      rcases flip_case_deref mask s with h | h <;> rw [h]
      constructor
      · intro e
        rw [← other_case_involutive (deref s), e]
        rfl
      · intro e
        rw [e]
        rfl
    by_cases h : deref s = 0
    · rw [if_pos h, if_pos (h0.2 h)]
    · rw [if_neg h, if_neg (fun e => h (h0.1 e))]
  | cons c t ih =>
    have hc0 : c ≠ 0 := ht0 c (List.mem_cons_self _ _)
    have hcc : other_case c = c := ht c (List.mem_cons_self _ _)
    have ht0t : ∀ c ∈ t, c ≠ 0 := fun c hc => ht0 c (List.mem_cons_of_mem _ hc)
    have htt : ∀ c ∈ t, other_case c = c := fun c hc => ht c (List.mem_cons_of_mem _ hc)
    by_cases hd : '0'.toNat ≤ c ∧ c ≤ '3'.toNat
    · have hx : isxdigit (deref (flip_case mask s)) = isxdigit (deref s) := by
        rcases flip_case_deref mask s with h | h <;> rw [h]
        exact isxdigit_other_case _
      have hv : hexit_value (deref (flip_case mask s)) = hexit_value (deref s) := by
        rcases flip_case_deref mask s with h | h <;> rw [h]
        exact hexit_other_case _
      rw [loop_cons_digit c t u _ hd, loop_cons_digit c t u _ hd, hx, hv, flip_case_tail,
        ih ht0t htt]
    · have heq : deref (flip_case mask s) = c ↔ deref s = c := by
        rcases flip_case_deref mask s with h | h <;> rw [h]
        constructor
        · intro e
          rw [← other_case_involutive (deref s), e, hcc]
        · intro e
          rw [e, hcc]
      rw [loop_cons_other c t u _ hd hc0, loop_cons_other c t u _ hd hc0, flip_case_tail,
        ih ht0t htt]
      by_cases h : deref s = c
      · rw [if_pos h, if_pos (heq.2 h)]
      · rw [if_neg h, if_neg (fun e => h (heq.1 e))]

theorem template_no_letter : ∀ c ∈ uuid_template, other_case c = c := by decide

/-- C15: `uuid_from_string` is case-insensitive in the hexadecimal digits.
Replacing hexadecimal letters of a string by their other-case form, at any
set of positions, changes neither the result nor the identifier left; so an
accepted string is still accepted and yields the same four parts. -/
theorem from_string_case_insensitive (u0 : Uuid) (mask : List Bool) (s : List Nat) :
    uuid_from_string u0 (flip_case mask s) = uuid_from_string u0 s
      ∧ ((uuid_from_string u0 s).1 = true →
          (uuid_from_string u0 (flip_case mask s)).1 = true
            ∧ ∀ i, (uuid_from_string u0 (flip_case mask s)).2.part i
                = (uuid_from_string u0 s).2.part i) := by
  have h : uuid_from_string u0 (flip_case mask s) = uuid_from_string u0 s :=
    loop_flip_case uuid_template template_ne_zero template_no_letter _ mask s
  refine ⟨h, ?_⟩
  intro hs
  rw [h]
  exact ⟨hs, fun _ => rfl⟩

/-- The witness of C15: "01234567-89ab-cDEf-0123-456789abcdef" with the case
of the characters at positions 11, 14 and 35 changed. -/
theorem from_string_case_insensitive_witness :
    flip_case ((List.range 36).map (fun i => decide (i = 11 ∨ i = 14 ∨ i = 35)))
        (cstr "01234567-89ab-cDEf-0123-456789abcdef")
        = cstr "01234567-89Ab-CDEf-0123-456789abcdeF"
      ∧ (uuid_from_string ⟨0, 0, 0, 0⟩ (cstr "01234567-89ab-cDEf-0123-456789abcdef")).1 = true
      ∧ (uuid_from_string ⟨0, 0, 0, 0⟩
          (flip_case ((List.range 36).map (fun i => decide (i = 11 ∨ i = 14 ∨ i = 35)))
            (cstr "01234567-89ab-cDEf-0123-456789abcdef"))).1 = true :=
  ⟨by decide, by decide,
    ((from_string_case_insensitive ⟨0, 0, 0, 0⟩
      ((List.range 36).map (fun i => decide (i = 11 ∨ i = 14 ∨ i = 35)))
      (cstr "01234567-89ab-cDEf-0123-456789abcdef")).2 (by decide)).1⟩

/-! ## Parsing: the positions examined -/

theorem strlen_tail_succ (s : List Nat) (h : deref s ≠ 0) : strlen s = strlen s.tail + 1 :=
  (strlen_eq_succ s (strlen s.tail)).2 ⟨h, rfl⟩

/-- The loop with its reads is the loop; it examines consecutive positions,
one for each iteration, no more than the template has characters and its NUL,
and none after the NUL of `s`. -/
theorem loop_reads_spec (t : List Nat) (u : Uuid) (s : List Nat) (i : Nat) :
    (from_string_loop_reads t u s i).1 = from_string_loop t u s
      ∧ (from_string_loop_reads t u s i).2
          = List.range' i (from_string_loop_reads t u s i).2.length
      ∧ 1 ≤ (from_string_loop_reads t u s i).2.length
      ∧ (from_string_loop_reads t u s i).2.length ≤ t.length + 1
      ∧ (from_string_loop_reads t u s i).2.length ≤ strlen s + 1 := by
  induction t generalizing u s i with
  | nil =>
    rw [from_string_loop_reads, from_string_loop]
    split_ifs <;> simp [List.range']
  | cons c t ih =>
    rw [from_string_loop_reads, from_string_loop]
    by_cases hd : '0'.toNat ≤ c ∧ c ≤ '3'.toNat
    · rw [if_pos hd, if_pos hd]
      by_cases hx : isxdigit (deref s) = true
      · have hn : ¬ ¬ isxdigit (deref s) = true := fun e => e hx
        rw [if_neg hn, if_neg hn]
        obtain ⟨h1, h2, h3, h4, h5⟩ := ih
          (u.setPart (c - '0'.toNat)
            ((u.part (c - '0'.toNat) <<< 4) % 2 ^ 32 + hexit_value (deref s))) s.tail (i + 1)
        have hs := strlen_tail_succ s (isxdigit_ne_zero _ hx)
        refine ⟨h1, ?_, ?_, ?_, ?_⟩
        · simp only [List.length_cons, List.range'_succ]
          rw [← h2]
        · simp only [List.length_cons]; omega
        · simp only [List.length_cons]; omega
        · simp only [List.length_cons]; omega
      · rw [if_pos hx, if_pos hx]
        simp [List.range']
    · rw [if_neg hd, if_neg hd]
      by_cases hne : c ≠ deref s
      · rw [if_pos hne, if_pos hne]
        simp [List.range']
      · rw [if_neg hne, if_neg hne]
        by_cases h0 : c = 0
        · rw [if_pos h0, if_pos h0]
          simp [List.range']
        · rw [if_neg h0, if_neg h0]
          obtain ⟨h1, h2, h3, h4, h5⟩ := ih u s.tail (i + 1)
          have hds : deref s ≠ 0 := by
            intro e
            apply h0
            have : c = deref s := not_not.1 hne
            rw [this, e]
          have hs := strlen_tail_succ s hds
          refine ⟨h1, ?_, ?_, ?_, ?_⟩
          · simp only [List.length_cons, List.range'_succ]
            rw [← h2]
          · simp only [List.length_cons]; omega
          · simp only [List.length_cons]; omega
          · simp only [List.length_cons]; omega

/-- C19: for every buffer `s`, `uuid_from_string` returns after examining at
most 37 positions of `s`, which are the positions 0, 1, 2, ... in order up to
the one where it returns, and every position it examines is at most the
length of the string: it reads no character after the terminating NUL. -/
theorem from_string_reads_bounded (u0 : Uuid) (s : List Nat) :
    (uuid_from_string_reads u0 s).1 = uuid_from_string u0 s
      ∧ (uuid_from_string_reads u0 s).2 = List.range (uuid_from_string_reads u0 s).2.length
      ∧ (uuid_from_string_reads u0 s).2.length ≤ 37
      ∧ ∀ i ∈ (uuid_from_string_reads u0 s).2, i ≤ strlen s ∧ i ≤ 36 := by
  obtain ⟨h1, h2, -, h4, h5⟩ := loop_reads_spec uuid_template (uuid_zero u0) s 0
  rw [template_length] at h4
  have h2b : (uuid_from_string_reads u0 s).2
      = List.range (uuid_from_string_reads u0 s).2.length := by
    rw [List.range_eq_range']
    exact h2
  refine ⟨h1, h2b, h4, ?_⟩
  intro i hi
  rw [h2b, List.mem_range] at hi
  have h4b : (uuid_from_string_reads u0 s).2.length ≤ 37 := h4
  have h5b : (uuid_from_string_reads u0 s).2.length ≤ strlen s + 1 := h5
  omega


/-! ## Parsing and writing back -/

theorem hex_digit_hexit (c : Nat) (h : isxdigit c = true) :
    hex_digit (hexit_value c) = lower_case c := by
  have hc : c < 103 := by
    by_contra hge
    have e : isxdigit c = false := by
      unfold isxdigit
      have e9 : '9'.toNat = 57 := rfl
      have ef : 'f'.toNat = 102 := rfl
      have eF : 'F'.toNat = 70 := rfl
      rw [e9, ef, eF]
      simp only [Bool.or_eq_false_iff, Bool.and_eq_false_iff, decide_eq_false_iff_not]
      omega
    rw [e] at h
    exact Bool.noConfusion h
  have key : ∀ c, c < 103 → isxdigit c = true → hex_digit (hexit_value c) = lower_case c := by
    decide
  exact key c hc h

theorem lower_case_hyphen : lower_case '-'.toNat = '-'.toNat := by decide

theorem hex_value_digits (x0 x1 x2 x3 x4 x5 x6 x7 : Nat) :
    hex_value [x0, x1, x2, x3, x4, x5, x6, x7] / 16 ^ 7 % 16 = hexit_value x0
      ∧ hex_value [x0, x1, x2, x3, x4, x5, x6, x7] / 16 ^ 6 % 16 = hexit_value x1
      ∧ hex_value [x0, x1, x2, x3, x4, x5, x6, x7] / 16 ^ 5 % 16 = hexit_value x2
      ∧ hex_value [x0, x1, x2, x3, x4, x5, x6, x7] / 16 ^ 4 % 16 = hexit_value x3
      ∧ hex_value [x0, x1, x2, x3, x4, x5, x6, x7] / 16 ^ 3 % 16 = hexit_value x4
      ∧ hex_value [x0, x1, x2, x3, x4, x5, x6, x7] / 16 ^ 2 % 16 = hexit_value x5
      ∧ hex_value [x0, x1, x2, x3, x4, x5, x6, x7] / 16 ^ 1 % 16 = hexit_value x6
      ∧ hex_value [x0, x1, x2, x3, x4, x5, x6, x7] / 16 ^ 0 % 16 = hexit_value x7 := by
  have b0 := hexit_value_lt x0
  have b1 := hexit_value_lt x1
  have b2 := hexit_value_lt x2
  have b3 := hexit_value_lt x3
  have b4 := hexit_value_lt x4
  have b5 := hexit_value_lt x5
  have b6 := hexit_value_lt x6
  have b7 := hexit_value_lt x7
  simp only [hex_value, List.foldl]
  refine ⟨?_, ?_, ?_, ?_, ?_, ?_, ?_, ?_⟩ <;> omega

theorem hex_value_halves (x0 x1 x2 x3 x4 x5 x6 x7 : Nat) :
    hex_value [x0, x1, x2, x3, x4, x5, x6, x7] >>> 16 = hex_value [x0, x1, x2, x3]
      ∧ hex_value [x0, x1, x2, x3, x4, x5, x6, x7] &&& 0xffff = hex_value [x4, x5, x6, x7] := by
  have b4 := hexit_value_lt x4
  have b5 := hexit_value_lt x5
  have b6 := hexit_value_lt x6
  have b7 := hexit_value_lt x7
  have e1 : ∀ x : Nat, x &&& 0xffff = x % 65536 := fun x =>
    Nat.and_pow_two_sub_one_eq_mod x 16
  rw [e1, Nat.shiftRight_eq_div_pow]
  simp only [hex_value, List.foldl]
  constructor <;> omega

theorem hex_value_digits4 (x0 x1 x2 x3 : Nat) :
    hex_value [x0, x1, x2, x3] / 16 ^ 3 % 16 = hexit_value x0
      ∧ hex_value [x0, x1, x2, x3] / 16 ^ 2 % 16 = hexit_value x1
      ∧ hex_value [x0, x1, x2, x3] / 16 ^ 1 % 16 = hexit_value x2
      ∧ hex_value [x0, x1, x2, x3] / 16 ^ 0 % 16 = hexit_value x3 := by
  have b0 := hexit_value_lt x0
  have b1 := hexit_value_lt x1
  have b2 := hexit_value_lt x2
  have b3 := hexit_value_lt x3
  simp only [hex_value, List.foldl]
  refine ⟨?_, ?_, ?_, ?_⟩ <;> omega

theorem hex_field8_digits (x0 x1 x2 x3 x4 x5 x6 x7 : Nat)
    (h0 : isxdigit x0 = true) (h1 : isxdigit x1 = true) (h2 : isxdigit x2 = true)
    (h3 : isxdigit x3 = true) (h4 : isxdigit x4 = true) (h5 : isxdigit x5 = true)
    (h6 : isxdigit x6 = true) (h7 : isxdigit x7 = true) :
    hex_field 8 (hex_value [x0, x1, x2, x3, x4, x5, x6, x7])
      = [lower_case x0, lower_case x1, lower_case x2, lower_case x3, lower_case x4,
          lower_case x5, lower_case x6, lower_case x7] := by
  obtain ⟨e0, e1, e2, e3, e4, e5, e6, e7⟩ := hex_value_digits x0 x1 x2 x3 x4 x5 x6 x7
  simp only [hex_field]
  rw [e0, e1, e2, e3, e4, e5, e6, e7, hex_digit_hexit _ h0, hex_digit_hexit _ h1,
    hex_digit_hexit _ h2, hex_digit_hexit _ h3, hex_digit_hexit _ h4, hex_digit_hexit _ h5,
    hex_digit_hexit _ h6, hex_digit_hexit _ h7]

theorem hex_field4_digits (x0 x1 x2 x3 : Nat)
    (h0 : isxdigit x0 = true) (h1 : isxdigit x1 = true) (h2 : isxdigit x2 = true)
    (h3 : isxdigit x3 = true) :
    hex_field 4 (hex_value [x0, x1, x2, x3])
      = [lower_case x0, lower_case x1, lower_case x2, lower_case x3] := by
  obtain ⟨e0, e1, e2, e3⟩ := hex_value_digits4 x0 x1 x2 x3
  simp only [hex_field]
  rw [e0, e1, e2, e3, hex_digit_hexit _ h0, hex_digit_hexit _ h1,
    hex_digit_hexit _ h2, hex_digit_hexit _ h3]

/-- The characters of a string of the canonical shape. -/
theorem cstring_cells (c0 c1 c2 c3 c4 c5 c6 c7 c8 c9 c10 c11 c12 c13 c14 c15 c16 c17 c18 c19 c20 c21 c22 c23 c24 c25 c26 c27 c28 c29 c30 c31 c32 c33 c34 c35 : Nat) (rest : List Nat)
    (hrest : deref rest = 0)
    (hd : ∀ c ∈ [c0, c1, c2, c3, c4, c5, c6, c7, c9, c10, c11, c12, c14, c15, c16, c17, c19, c20, c21, c22, c24, c25, c26, c27, c28, c29, c30, c31, c32, c33, c34, c35], isxdigit c = true)
    (h8 : c8 = '-'.toNat) (h13 : c13 = '-'.toNat) (h18 : c18 = '-'.toNat)
    (h23 : c23 = '-'.toNat) :
    cstring (c0 :: c1 :: c2 :: c3 :: c4 :: c5 :: c6 :: c7 :: c8 :: c9 :: c10 :: c11 :: c12 :: c13 :: c14 :: c15 :: c16 :: c17 :: c18 :: c19 :: c20 :: c21 :: c22 :: c23 :: c24 :: c25 :: c26 :: c27 :: c28 :: c29 :: c30 :: c31 :: c32 :: c33 :: c34 :: c35 :: rest) =
      [c0, c1, c2, c3, c4, c5, c6, c7, c8, c9, c10, c11, c12, c13, c14, c15, c16, c17, c18, c19, c20, c21, c22, c23, c24, c25, c26, c27, c28, c29, c30, c31, c32, c33, c34, c35] := by
  subst h8 h13 h18 h23
  simp only [List.forall_mem_cons, List.not_mem_nil, false_implies, implies_true, and_true,
    List.mem_cons, List.mem_singleton, forall_eq_or_imp, forall_eq] at hd
  obtain ⟨x0, x1, x2, x3, x4, x5, x6, x7, x9, x10, x11, x12, x14, x15, x16, x17, x19, x20, x21, x22, x24, x25, x26, x27, x28, x29, x30, x31, x32, x33, x34, x35⟩ := hd
  have hy : ('-'.toNat) ≠ 0 := by decide
  rw [cstring_cons _ _ (isxdigit_ne_zero _ x0)]
  rw [cstring_cons _ _ (isxdigit_ne_zero _ x1)]
  rw [cstring_cons _ _ (isxdigit_ne_zero _ x2)]
  rw [cstring_cons _ _ (isxdigit_ne_zero _ x3)]
  rw [cstring_cons _ _ (isxdigit_ne_zero _ x4)]
  rw [cstring_cons _ _ (isxdigit_ne_zero _ x5)]
  rw [cstring_cons _ _ (isxdigit_ne_zero _ x6)]
  rw [cstring_cons _ _ (isxdigit_ne_zero _ x7)]
  rw [cstring_cons _ _ hy]
  rw [cstring_cons _ _ (isxdigit_ne_zero _ x9)]
  rw [cstring_cons _ _ (isxdigit_ne_zero _ x10)]
  rw [cstring_cons _ _ (isxdigit_ne_zero _ x11)]
  rw [cstring_cons _ _ (isxdigit_ne_zero _ x12)]
  rw [cstring_cons _ _ hy]
  rw [cstring_cons _ _ (isxdigit_ne_zero _ x14)]
  rw [cstring_cons _ _ (isxdigit_ne_zero _ x15)]
  rw [cstring_cons _ _ (isxdigit_ne_zero _ x16)]
  rw [cstring_cons _ _ (isxdigit_ne_zero _ x17)]
  rw [cstring_cons _ _ hy]
  rw [cstring_cons _ _ (isxdigit_ne_zero _ x19)]
  rw [cstring_cons _ _ (isxdigit_ne_zero _ x20)]
  rw [cstring_cons _ _ (isxdigit_ne_zero _ x21)]
  rw [cstring_cons _ _ (isxdigit_ne_zero _ x22)]
  rw [cstring_cons _ _ hy]
  rw [cstring_cons _ _ (isxdigit_ne_zero _ x24)]
  rw [cstring_cons _ _ (isxdigit_ne_zero _ x25)]
  rw [cstring_cons _ _ (isxdigit_ne_zero _ x26)]
  rw [cstring_cons _ _ (isxdigit_ne_zero _ x27)]
  rw [cstring_cons _ _ (isxdigit_ne_zero _ x28)]
  rw [cstring_cons _ _ (isxdigit_ne_zero _ x29)]
  rw [cstring_cons _ _ (isxdigit_ne_zero _ x30)]
  rw [cstring_cons _ _ (isxdigit_ne_zero _ x31)]
  rw [cstring_cons _ _ (isxdigit_ne_zero _ x32)]
  rw [cstring_cons _ _ (isxdigit_ne_zero _ x33)]
  rw [cstring_cons _ _ (isxdigit_ne_zero _ x34)]
  rw [cstring_cons _ _ (isxdigit_ne_zero _ x35)]
  rw [cstring_nul _ hrest]

/-- Writing the identifier parsed from an accepted string gives the string
in lowercase. -/
theorem to_string_parsed (u0 : Uuid) (s : List Nat) (h : (uuid_from_string u0 s).1 = true) :
    uuid_to_string (uuid_from_string u0 s).2 = (cstring s).map lower_case := by
  obtain ⟨c0, c1, c2, c3, c4, c5, c6, c7, c8, c9, c10, c11, c12, c13, c14, c15, c16, c17, c18, c19, c20, c21, c22, c23, c24, c25, c26, c27, c28, c29, c30, c31, c32, c33, c34, c35, rest, rfl, hrest, hd, h8, h13, h18, h23⟩ :=
    accepted_shape u0 s h
  rw [from_string_cells u0 _ _ _ _ _ _ _ _ _ _ _ _ _ _ _ _ _ _ _ _ _ _ _ _ _ _ _ _ _ _ _ _ _ _
      _ _ rest hrest hd h8 h13 h18 h23,
    cstring_cells _ _ _ _ _ _ _ _ _ _ _ _ _ _ _ _ _ _ _ _ _ _ _ _ _ _ _ _ _ _ _ _ _ _
      _ _ rest hrest hd h8 h13 h18 h23]
  subst h8 h13 h18 h23
  simp only [List.forall_mem_cons, List.not_mem_nil, false_implies, implies_true, and_true,
    List.mem_cons, List.mem_singleton, forall_eq_or_imp, forall_eq] at hd
  obtain ⟨x0, x1, x2, x3, x4, x5, x6, x7, x9, x10, x11, x12, x14, x15, x16, x17, x19, x20, x21, x22, x24, x25, x26, x27, x28, x29, x30, x31, x32, x33, x34, x35⟩ := hd
  simp only [uuid_to_string, Uuid.part, List.map_cons, List.map_nil, lower_case_hyphen]
  rw [(hex_value_halves _ _ _ _ _ _ _ _).1, (hex_value_halves _ _ _ _ _ _ _ _).2,
    (hex_value_halves _ _ _ _ _ _ _ _).1, (hex_value_halves _ _ _ _ _ _ _ _).2,
    hex_field8_digits _ _ _ _ _ _ _ _ x0 x1 x2 x3 x4 x5 x6 x7,
    hex_field8_digits _ _ _ _ _ _ _ _ x28 x29 x30 x31 x32 x33 x34 x35,
    hex_field4_digits _ _ _ _ x9 x10 x11 x12, hex_field4_digits _ _ _ _ x14 x15 x16 x17,
    hex_field4_digits _ _ _ _ x19 x20 x21 x22, hex_field4_digits _ _ _ _ x24 x25 x26 x27]
  rfl

/-- C20: for every string that `uuid_from_string` accepts, the canonical
lowercase string of the identifier it leaves is the string itself with its
hexadecimal letters in lowercase; so two accepted strings that give the same
identifier are equal once their letters are in lowercase. -/
theorem parsed_to_string (u0 : Uuid) (s : List Nat) (h : (uuid_from_string u0 s).1 = true) :
    uuid_to_string (uuid_from_string u0 s).2 = (cstring s).map lower_case
      ∧ ∀ s2, (uuid_from_string u0 s2).1 = true →
          (uuid_from_string u0 s2).2 = (uuid_from_string u0 s).2 →
            (cstring s2).map lower_case = (cstring s).map lower_case := by
  refine ⟨to_string_parsed u0 s h, ?_⟩
  intro s2 h2 heq
  rw [← to_string_parsed u0 s h, ← to_string_parsed u0 s2 h2, heq]

/-- The witness of C20: "01234567-89AB-cdEF-0123-456789aBcDeF". -/
theorem parsed_to_string_witness :
    (uuid_from_string ⟨0, 0, 0, 0⟩ (cstr "01234567-89AB-cdEF-0123-456789aBcDeF")).1 = true
      ∧ uuid_to_string
          (uuid_from_string ⟨0, 0, 0, 0⟩ (cstr "01234567-89AB-cdEF-0123-456789aBcDeF")).2
          = (cstring (cstr "01234567-89AB-cdEF-0123-456789aBcDeF")).map lower_case
      ∧ (cstring (cstr "01234567-89AB-cdEF-0123-456789aBcDeF")).map lower_case
          = cstr "01234567-89ab-cdef-0123-456789abcdef" :=
  ⟨by decide,
    (parsed_to_string ⟨0, 0, 0, 0⟩ (cstr "01234567-89AB-cdEF-0123-456789aBcDeF")
      (by decide)).1,
    by decide⟩

/-! ## The order of the canonical strings -/

theorem lex_compare_cons_same (c : Nat) (x y : List Nat) :
    lex_compare (c :: x) (c :: y) = lex_compare x y := by
  rw [lex_compare]
  simp

theorem lex_compare_append (x x2 y y2 : List Nat) (hlen : x.length = x2.length) :
    lex_compare (x ++ y) (x2 ++ y2)
      = if lex_compare x x2 ≠ 0 then lex_compare x x2 else lex_compare y y2 := by
  induction x generalizing x2 with
  | nil =>
    cases x2 with
    | nil => simp [lex_compare]
    | cons b x2 => simp at hlen
  | cons a x ih =>
    cases x2 with
    | nil => simp at hlen
    | cons b x2 =>
      simp only [List.length_cons, add_left_inj] at hlen
      simp only [List.cons_append, lex_compare]
      by_cases h1 : a < b
      · simp [h1]
      · by_cases h2 : a > b
        · simp [h1, h2]
        · simp only [h1, h2, if_false]
          exact ih x2 hlen

theorem hex_field_length (w v : Nat) : (hex_field w v).length = w := by
  induction w with
  | zero => rfl
  | succ w ih => simp [hex_field, ih]

theorem hex_digit_lt_iff :
    ∀ a, a < 16 → ∀ b, b < 16 → (hex_digit a < hex_digit b ↔ a < b) := by
  decide

/-- Fields of the same width are ordered as the numbers they write. -/
theorem lex_compare_hex_field (w v v2 : Nat) :
    lex_compare (hex_field w v) (hex_field w v2) = cmp3 (v % 16 ^ w) (v2 % 16 ^ w) := by
  induction w with
  | zero => simp [hex_field, lex_compare, cmp3, Nat.mod_one]
  | succ w ih =>
    have hd : v / 16 ^ w % 16 < 16 := Nat.mod_lt _ (by norm_num)
    have hd2 : v2 / 16 ^ w % 16 < 16 := Nat.mod_lt _ (by norm_num)
    have hr : v % 16 ^ w < 16 ^ w := Nat.mod_lt _ (by positivity)
    have hr2 : v2 % 16 ^ w < 16 ^ w := Nat.mod_lt _ (by positivity)
    have l1 := hex_digit_lt_iff _ hd _ hd2
    have l2 := hex_digit_lt_iff _ hd2 _ hd
    rw [hex_field, hex_field, lex_compare, ih, Nat.mod_pow_succ, Nat.mod_pow_succ]
    generalize v / 16 ^ w % 16 = d at *
    generalize v2 / 16 ^ w % 16 = d2 at *
    generalize v % 16 ^ w = r at *
    generalize v2 % 16 ^ w = r2 at *
    generalize 16 ^ w = B at *
    unfold cmp3
    by_cases h1 : d < d2
    · have : B * (d + 1) ≤ B * d2 := Nat.mul_le_mul_left B h1
      have e : r + B * d < r2 + B * d2 := by
        rw [Nat.mul_add, Nat.mul_one] at this
        omega
      rw [if_pos (l1.2 h1), if_pos e]
    · by_cases h2 : d2 < d
      · have : B * (d2 + 1) ≤ B * d := Nat.mul_le_mul_left B h2
        have e : r2 + B * d2 < r + B * d := by
          rw [Nat.mul_add, Nat.mul_one] at this
          omega
        have e1 : ¬ (r + B * d < r2 + B * d2) := by omega
        rw [if_neg (fun h => h1 (l1.1 h)), if_pos (l2.2 h2), if_neg e1, if_pos e]
      · have hdd : d = d2 := by omega
        subst hdd
        rw [if_neg (fun h => h1 (l1.1 h)), if_neg (fun h => h2 (l2.1 h))]
        by_cases h3 : r < r2
        · rw [if_pos h3, if_pos (by omega)]
        · by_cases h4 : r > r2
          · rw [if_neg h3, if_pos h4, if_neg (by omega), if_pos (by omega)]
          · rw [if_neg h3, if_neg h4, if_neg (by omega), if_neg (by omega)]

theorem cmp3_ne_zero_iff (x y : Nat) : cmp3 x y ≠ 0 ↔ x ≠ y := by
  unfold cmp3
  split_ifs <;> omega

theorem cmp3_of_ne (x y : Nat) (h : x ≠ y) : cmp3 x y = if x > y then 1 else -1 := by
  unfold cmp3
  split_ifs <;> omega

theorem cmp3_of_eq (x y : Nat) (h : ¬ x ≠ y) : cmp3 x y = 0 := by
  unfold cmp3
  split_ifs <;> omega

theorem compare_as_cmp3 (a b : Uuid) :
    uuid_compare_3way a b =
      if cmp3 a.p0 b.p0 ≠ 0 then cmp3 a.p0 b.p0
      else if cmp3 a.p1 b.p1 ≠ 0 then cmp3 a.p1 b.p1
      else if cmp3 a.p2 b.p2 ≠ 0 then cmp3 a.p2 b.p2
      else cmp3 a.p3 b.p3 := by
  rw [compare_unfold]
  simp only [cmp3_ne_zero_iff]
  by_cases h0 : a.p0 ≠ b.p0
  · rw [if_pos h0, if_pos h0, cmp3_of_ne _ _ h0]
  · rw [if_neg h0, if_neg h0]
    by_cases h1 : a.p1 ≠ b.p1
    · rw [if_pos h1, if_pos h1, cmp3_of_ne _ _ h1]
    · rw [if_neg h1, if_neg h1]
      by_cases h2 : a.p2 ≠ b.p2
      · rw [if_pos h2, if_pos h2, cmp3_of_ne _ _ h2]
      · rw [if_neg h2, if_neg h2]
        by_cases h3 : a.p3 ≠ b.p3
        · rw [if_pos h3, cmp3_of_ne _ _ h3]
        · rw [if_neg h3, cmp3_of_eq _ _ h3]

theorem cmp3_halves (p q : Nat) (hp : p < 2 ^ 32) (hq : q < 2 ^ 32) :
    cmp3 p q =
      if cmp3 ((p >>> 16) % 16 ^ 4) ((q >>> 16) % 16 ^ 4) ≠ 0 then
        cmp3 ((p >>> 16) % 16 ^ 4) ((q >>> 16) % 16 ^ 4)
      else cmp3 ((p &&& 0xffff) % 16 ^ 4) ((q &&& 0xffff) % 16 ^ 4) := by
  have e1 : ∀ x : Nat, x &&& 0xffff = x % 65536 := fun x =>
    Nat.and_pow_two_sub_one_eq_mod x 16
  rw [e1, e1, Nat.shiftRight_eq_div_pow, Nat.shiftRight_eq_div_pow]
  unfold cmp3
  split_ifs <;> omega

theorem uuid_to_string_fields (u : Uuid) :
    uuid_to_string u =
      hex_field 8 u.p0 ++ ('-'.toNat :: (hex_field 4 (u.p1 >>> 16) ++ ('-'.toNat ::
        (hex_field 4 (u.p1 &&& 0xffff) ++ ('-'.toNat :: (hex_field 4 (u.p2 >>> 16)
          ++ ('-'.toNat :: (hex_field 4 (u.p2 &&& 0xffff) ++ hex_field 8 u.p3)))))))) := by
  simp only [uuid_to_string, Uuid.part, List.append_assoc, List.cons_append]

/-- The comparison is the order of the canonical strings. -/
theorem compare_eq_lex (a b : Uuid) (ha : a.wf) (hb : b.wf) :
    uuid_compare_3way a b = lex_compare (uuid_to_string a) (uuid_to_string b) := by
  obtain ⟨a0, a1, a2, a3⟩ := ha
  obtain ⟨b0, b1, b2, b3⟩ := hb
  have e8 : (16 : Nat) ^ 8 = 2 ^ 32 := by norm_num
  rw [uuid_to_string_fields, uuid_to_string_fields,
    lex_compare_append _ _ _ _ (by rw [hex_field_length, hex_field_length]),
    lex_compare_cons_same,
    lex_compare_append _ _ _ _ (by rw [hex_field_length, hex_field_length]),
    lex_compare_cons_same,
    lex_compare_append _ _ _ _ (by rw [hex_field_length, hex_field_length]),
    lex_compare_cons_same,
    lex_compare_append _ _ _ _ (by rw [hex_field_length, hex_field_length]),
    lex_compare_cons_same,
    lex_compare_append _ _ _ _ (by rw [hex_field_length, hex_field_length])]
  simp only [lex_compare_hex_field]
  rw [e8, Nat.mod_eq_of_lt a0, Nat.mod_eq_of_lt b0, Nat.mod_eq_of_lt a3, Nat.mod_eq_of_lt b3,
    compare_as_cmp3, cmp3_halves a.p1 b.p1 a1 b1, cmp3_halves a.p2 b.p2 a2 b2]
  generalize cmp3 a.p0 b.p0 = c0
  generalize cmp3 ((a.p1 >>> 16) % 16 ^ 4) ((b.p1 >>> 16) % 16 ^ 4) = c1
  generalize cmp3 ((a.p1 &&& 0xffff) % 16 ^ 4) ((b.p1 &&& 0xffff) % 16 ^ 4) = c2
  generalize cmp3 ((a.p2 >>> 16) % 16 ^ 4) ((b.p2 >>> 16) % 16 ^ 4) = c3
  generalize cmp3 ((a.p2 &&& 0xffff) % 16 ^ 4) ((b.p2 &&& 0xffff) % 16 ^ 4) = c4
  generalize cmp3 a.p3 b.p3 = c5
  split_ifs <;> rfl

/-- C11: for all identifiers `a` and `b` (with 32-bit parts), the sign of
`uuid_compare_3way a b` is the sign of the byte-wise lexicographic comparison
of their canonical lowercase 8-4-4-4-12 strings; the two are even the same
number, -1, 0 or 1. -/
theorem compare_3way_string_order (a b : Uuid) (ha : a.wf) (hb : b.wf) :
    Int.sign (uuid_compare_3way a b)
        = Int.sign (lex_compare (uuid_to_string a) (uuid_to_string b))
      ∧ uuid_compare_3way a b = lex_compare (uuid_to_string a) (uuid_to_string b) := by
  have h := compare_eq_lex a b ha hb
  exact ⟨by rw [h], h⟩

/-- The witness of C11: 0000ffff-... is below 00010000-..., as strings and as
identifiers. -/
theorem compare_3way_string_order_witness :
    uuid_compare_3way ⟨0x0000ffff, 0, 0, 0⟩ ⟨0x00010000, 0, 0, 0⟩ = -1
      ∧ lex_compare (uuid_to_string ⟨0x0000ffff, 0, 0, 0⟩)
          (uuid_to_string ⟨0x00010000, 0, 0, 0⟩) = -1
      ∧ uuid_compare_3way ⟨0x0000ffff, 0, 0, 0⟩ ⟨0x00010000, 0, 0, 0⟩
          = lex_compare (uuid_to_string ⟨0x0000ffff, 0, 0, 0⟩)
              (uuid_to_string ⟨0x00010000, 0, 0, 0⟩) :=
  ⟨by decide, by decide,
    (compare_3way_string_order ⟨0x0000ffff, 0, 0, 0⟩ ⟨0x00010000, 0, 0, 0⟩
      (by unfold Uuid.wf; decide) (by unfold Uuid.wf; decide)).2⟩
end OvsUuid
